import Mathlib

/-!
Verification of the streaming high-resolution DEM cache of
`src/terrain_management/large_scale_terrain/high_resolution_DEM_generator.py`
(class `HighResDEMGen`).

The embedding below translates the Python code directly:

* Real-valued quantities (positions in meters, heights, resolutions) are
  modelled as rationals `ℚ`; the shifting and bookkeeping logic performs no
  inexact arithmetic on them, and at the concrete configurations used in the
  scenarios every float computation of the source is exact at the modelled
  values.
* Python `int(x)` (truncation toward zero) is `pyTrunc`, Python `//` (floor
  division) is `Int.fdiv` / `Int.floor`.
* Python dictionaries are association lists with first-match lookup
  (`alookup`); every dictionary built by the code assigns each key at most
  once per construction (block coordinates are distinct when the block size
  is positive), so first-match lookup agrees with Python's latest-write
  semantics and the list order is the dict's insertion order.
* Python objects (the per-block mutable state dicts) are modelled with an
  explicit heap: `GridState.store` is the list of allocated `BlockState`
  records and trackers hold indices ("references") into it, so the aliasing
  behaviour of `shift_block_grid` (which stores old state objects in the new
  tracker and then mutates them through the old tracker) is captured exactly.
* numpy 2-d float arrays are total functions `ℤ → ℤ → ℚ` together with a side
  length; numpy's basic-slice assignment semantics (negative index
  normalisation, clamping, overlap-safe copy) are modelled in `shiftDem`,
  and numpy integer indexing (negative wrap-around inside `[-n, n)`, error
  outside) in `demIndex`.
-/

/-- Python `int(x)`: truncation toward zero. -/
def pyTrunc (q : ℚ) : ℤ := if q < 0 then ⌈q⌉ else ⌊q⌋

/-- Normalisation of a (possibly negative) Python slice endpoint against
length `n`: a negative endpoint counts from the end. -/
def pyIdx (n v : ℤ) : ℤ := if v < 0 then n + v else v

/-- Python slice endpoints are additionally clamped into `[0, n]`. -/
def clampIdx (n v : ℤ) : ℤ := max 0 (min n (pyIdx n v))

/-- The state dict attached to each block of the grid, mirroring the keys
used in `build_block_grid`. -/
structure BlockState where
  has_crater_metadata : Bool
  has_crater_data : Bool
  has_terrain_data : Bool
  is_padding : Bool
deriving DecidableEq, Repr

/-- The configuration fields of `HighResDEMCfg` that the modelled methods
read. -/
structure Cfg where
  num_blocks : ℕ
  block_size : ℤ
  resolution : ℚ
  generate_craters : Bool
deriving DecidableEq, Repr

/-- Association-list lookup with first-match semantics.  All dictionaries
built by the modelled code have pairwise-distinct keys, so this agrees with
Python dict lookup. -/
def alookup {α β : Type} [DecidableEq α] : List (α × β) → α → Option β
  | [], _ => none
  | kv :: rest, k => if kv.1 = k then some kv.2 else alookup rest k

theorem alookup_append {α β : Type} [DecidableEq α] (l₁ l₂ : List (α × β)) (k : α) :
    alookup (l₁ ++ l₂) k =
      match alookup l₁ k with
      | some v => some v
      | none => alookup l₂ k := by
  induction l₁ with
  | nil => simp [alookup]
  | cons kv rest ih =>
    by_cases h : kv.1 = k <;> simp [alookup, h, ih]

theorem alookup_mem {α β : Type} [DecidableEq α] {l : List (α × β)} {k : α} {v : β}
    (h : alookup l k = some v) : (k, v) ∈ l := by
  induction l with
  | nil => simp [alookup] at h
  | cons kv rest ih =>
    obtain ⟨a, b⟩ := kv
    by_cases hk : a = k
    · simp [alookup, hk] at h
      subst h
      subst hk
      exact List.mem_cons_self _ _
    · simp [alookup, hk] at h
      exact List.mem_cons_of_mem _ (ih h)

theorem alookup_isSome_of_mem_keys {α β : Type} [DecidableEq α] {l : List (α × β)} {k : α}
    (h : k ∈ l.map Prod.fst) : ∃ v, alookup l k = some v := by
  induction l with
  | nil => simp at h
  | cons kv rest ih =>
    by_cases hk : kv.1 = k
    · exact ⟨kv.2, by simp [alookup, hk]⟩
    · have h' : k ∈ rest.map Prod.fst := by
        simp only [List.map_cons, List.mem_cons] at h
        rcases h with h | h
        · exact absurd h.symm hk
        · exact h
      obtain ⟨v, hv⟩ := ih h'
      exact ⟨v, by simp [alookup, hk, hv]⟩

/-- Lookup in a list of pairs produced by mapping a key function that is
injective on the list: the entry of `a` is found. -/
theorem alookup_map_of_inj {α β γ : Type} [DecidableEq β] (l : List α) (k : α → β) (v : α → γ)
    (hinj : ∀ a₁ ∈ l, ∀ a₂ ∈ l, k a₁ = k a₂ → a₁ = a₂) {a : α} (ha : a ∈ l) :
    alookup (l.map fun x => (k x, v x)) (k a) = some (v a) := by
  induction l with
  | nil => simp at ha
  | cons b rest ih =>
    by_cases hb : k b = k a
    · have hba : b = a := hinj b (by simp) a ha hb
      subst hba
      simp [alookup]
    · have ha' : a ∈ rest := by
        rcases List.mem_cons.mp ha with h | h
        · exact absurd (h ▸ rfl) hb
        · exact h
      simp only [List.map_cons, alookup, hb, if_false]
      exact ih (fun a₁ h₁ a₂ h₂ => hinj a₁ (List.mem_cons_of_mem _ h₁) a₂ (List.mem_cons_of_mem _ h₂)) ha'

/-- The per-axis grid indices of `build_block_grid` / `shift_block_grid`:
Python `range(-num_blocks - 1, num_blocks + 2)`. -/
def gridIdx (n : ℕ) : List ℤ := (List.range (2 * n + 3)).map fun i : ℕ => (i : ℤ) - ((n : ℤ) + 1)

/-- The `(x, y)` pairs visited by the nested loops of `build_block_grid` and
`shift_block_grid`, in iteration order. -/
def gridPairs (n : ℕ) : List (ℤ × ℤ) :=
  (gridIdx n).flatMap fun x => (gridIdx n).map fun y => (x, y)

/-- The relative ("grid") coordinate `(x_c, y_c) = (x * block_size, y * block_size)`
of a loop index pair. -/
def slot (b : ℤ) (p : ℤ × ℤ) : ℤ × ℤ := (p.1 * b, p.2 * b)

/-- The padding test of the loops: the block lies in the outermost ring,
`x == -num_blocks - 1 or x == num_blocks + 1`, same for `y`. -/
def isPad (n : ℕ) (x y : ℤ) : Bool :=
  if x = -((n : ℤ) + 1) ∨ x = (n : ℤ) + 1 then true
  else if y = -((n : ℤ) + 1) ∨ y = (n : ℤ) + 1 then true
  else false

/-- The fresh block state created by `build_block_grid` and by
`shift_block_grid` for blocks that are new to the window. -/
def emptyState (cfg : Cfg) : BlockState :=
  { has_crater_metadata := !cfg.generate_craters
    has_crater_data := !cfg.generate_craters
    has_terrain_data := false
    is_padding := false }

/-- The grid bookkeeping of `HighResDEMGen`: the heap of allocated block
state objects (`store`, refs are list indices), `block_grid_tracker`
(relative slot ↦ ref) and `map_grid_block2coords` (absolute block coordinate
↦ relative slot), plus `current_block_coord`. -/
structure GridState where
  store : List BlockState
  tracker : List ((ℤ × ℤ) × ℕ)
  blockMap : List ((ℤ × ℤ) × (ℤ × ℤ))
  current : ℤ × ℤ

/-- One iteration of the nested loops of `build_block_grid`: allocate a
fresh copy of the empty state, set its padding flag from the loop indices,
and record it in both dictionaries. -/
def buildStep (cfg : Cfg) (c : ℤ × ℤ) (gs : GridState) (p : ℤ × ℤ) : GridState :=
  let s := slot cfg.block_size p
  let a := (s.1 + c.1, s.2 + c.2)
  { store := gs.store ++ [{ emptyState cfg with is_padding := isPad cfg.num_blocks p.1 p.2 }]
    tracker := gs.tracker ++ [(s, gs.store.length)]
    blockMap := gs.blockMap ++ [(a, s)]
    current := gs.current }

/-- `build_block_grid`, run with centre `c` (`self.current_block_coord`). -/
def buildGrid (cfg : Cfg) (c : ℤ × ℤ) : GridState :=
  (gridPairs cfg.num_blocks).foldl (buildStep cfg c)
    { store := [], tracker := [], blockMap := [], current := c }

/-- Overwrite the `is_padding` field of the state object at ref `r`. -/
def setPadRef (store : List BlockState) (r : ℕ) (v : Bool) : List BlockState :=
  match store[r]? with
  | some st => store.set r { st with is_padding := v }
  | none => store

/-- One iteration of the nested loops of `shift_block_grid`.  `old` is the
pre-shift state (its dictionaries are read but not replaced during the
loop), `acc` carries the shared heap plus the dictionaries under
construction.  Note the faithful translation of the source's final
conditional, which assigns the recomputed padding flag through
`self.block_grid_tracker` (the OLD tracker), mutating whichever object that
tracker holds at the looped-over slot. -/
def shiftStep (cfg : Cfg) (old : GridState) (c' : ℤ × ℤ) (acc : GridState) (p : ℤ × ℤ) :
    GridState :=
  let s := slot cfg.block_size p
  let a := (s.1 + c'.1, s.2 + c'.2)
  -- `if (x_i, y_i) not in self.map_grid_block2coords`: allocate a fresh
  -- empty state; otherwise store the old map's object (its ref) unchanged.
  -- `(alookup old.tracker s2).getD 0`: `s2` is a value of the old map,
  -- hence always a tracked slot; a miss would be a KeyError in the source,
  -- so the `getD 0` default is never taken on states the code produces.
  let tr :=
    match alookup old.blockMap a with
    | none => acc.tracker ++ [(s, acc.store.length)]
    | some s2 => acc.tracker ++ [(s, (alookup old.tracker s2).getD 0)]
  let store₁ :=
    match alookup old.blockMap a with
    | none => acc.store ++ [emptyState cfg]
    | some _ => acc.store
  -- the padding recomputation writes through `self.block_grid_tracker`,
  -- i.e. through the OLD tracker's ref for this slot
  let store₂ :=
    match alookup old.tracker s with
    | some r => setPadRef store₁ r (isPad cfg.num_blocks p.1 p.2)
    | none => store₁
  { store := store₂
    tracker := tr
    blockMap := acc.blockMap ++ [(a, s)]
    current := acc.current }

/-- `shift_block_grid(coordinates)` with `coordinates = c'`: rebuild both
dictionaries for the new centre, reusing the state objects of absolute
block coordinates already present in the old map. -/
def shiftGrid (cfg : Cfg) (gs : GridState) (c' : ℤ × ℤ) : GridState :=
  (gridPairs cfg.num_blocks).foldl (shiftStep cfg gs c')
    { store := gs.store, tracker := [], blockMap := [], current := gs.current }

/-- The grid-related effect of `shift(coordinates)` once the target block
coordinate `c'` is known: `shift_block_grid(c')` followed by
`self.current_block_coord = c'`. -/
def shiftTo (cfg : Cfg) (gs : GridState) (c' : ℤ × ℤ) : GridState :=
  { shiftGrid cfg gs c' with current := c' }

/-- Set one field of the block state registered for absolute block
coordinate `a`, resolving `a` through `map_grid_block2coords` and
`block_grid_tracker` the way `collect_terrain_data` and
`generate_craters_metadata` do. -/
def setField (gs : GridState) (a : ℤ × ℤ) (f : BlockState → BlockState) : GridState :=
  match alookup gs.blockMap a with
  | none => gs
  | some s =>
    match alookup gs.tracker s with
    | none => gs
    | some r =>
      match gs.store[r]? with
      | none => gs
      | some st => { gs with store := gs.store.set r (f st) }

/-- The flag updates the background machinery performs on the grid:
`generate_craters_metadata` writes `has_crater_metadata` (true or false),
`collect_terrain_data` sets `has_crater_data` / `has_terrain_data` to true
for a block whose worker result arrived. -/
inductive Ev where
  | craterMeta (a : ℤ × ℤ) (v : Bool)
  | craterData (a : ℤ × ℤ)
  | terrain (a : ℤ × ℤ)

def applyEv (gs : GridState) : Ev → GridState
  | .craterMeta a v => setField gs a fun st => { st with has_crater_metadata := v }
  | .craterData a => setField gs a fun st => { st with has_crater_data := true }
  | .terrain a => setField gs a fun st => { st with has_terrain_data := true }

/-- Grid states reachable by `HighResDEMGen`: the grid is built once at
construction (with `current_block_coord = (0, 0)`), and is thereafter
mutated only by `shift` (which calls `shift_block_grid` and updates the
current block coordinate) and by the flag updates of the collection
machinery. -/
inductive Reachable (cfg : Cfg) : GridState → Prop where
  | base : Reachable cfg (buildGrid cfg (0, 0))
  | step_shift {gs} (c' : ℤ × ℤ) : Reachable cfg gs → Reachable cfg (shiftTo cfg gs c')
  | step_ev {gs} (e : Ev) : Reachable cfg gs → Reachable cfg (applyEv gs e)

/-- The readiness conjunction `is_map_done` evaluates for one relative
slot: all three data flags of the state object the tracker holds there. -/
def blockReady (gs : GridState) (s : ℤ × ℤ) : Bool :=
  match alookup gs.tracker s with
  | some r =>
    match gs.store[r]? with
    | some st => st.has_crater_metadata && st.has_crater_data && st.has_terrain_data
    | none => false
  | none => false

/-- `is_map_done()`: `all(...)` over the values of `map_grid_block2coords`
(i.e. over every relative slot of the grid, padding ones included). -/
def isMapDone (gs : GridState) : Bool :=
  gs.blockMap.all fun kv => blockReady gs kv.2

/-- The state object registered for relative slot `s`. -/
def stateAt (gs : GridState) (s : ℤ × ℤ) : Option BlockState :=
  match alookup gs.tracker s with
  | some r => gs.store[r]?
  | none => none

/-- Equality of the three readiness (data) flags; `is_padding` is not
constrained. -/
def sameReady (s t : BlockState) : Prop :=
  s.has_crater_metadata = t.has_crater_metadata ∧
  s.has_crater_data = t.has_crater_data ∧
  s.has_terrain_data = t.has_terrain_data

theorem mem_gridIdx {n : ℕ} {z : ℤ} : z ∈ gridIdx n ↔ -((n : ℤ) + 1) ≤ z ∧ z ≤ (n : ℤ) + 1 := by
  constructor
  · intro hz
    obtain ⟨i, hi, hiz⟩ := List.mem_map.mp hz
    have hi' := List.mem_range.mp hi
    omega
  · rintro ⟨h₁, h₂⟩
    refine List.mem_map.mpr ⟨(z + ((n : ℤ) + 1)).toNat, List.mem_range.mpr ?_, ?_⟩
    · omega
    · omega

theorem nodup_gridIdx (n : ℕ) : (gridIdx n).Nodup := by
  unfold gridIdx
  refine List.Nodup.map ?_ (List.nodup_range _)
  intro i j h
  dsimp only at h
  omega

theorem mem_gridPairs {n : ℕ} {p : ℤ × ℤ} :
    p ∈ gridPairs n ↔ p.1 ∈ gridIdx n ∧ p.2 ∈ gridIdx n := by
  obtain ⟨x, y⟩ := p
  simp only [gridPairs, List.mem_flatMap, List.mem_map]
  constructor
  · rintro ⟨x', hx', y', hy', h⟩
    cases h
    exact ⟨hx', hy'⟩
  · rintro ⟨hx, hy⟩
    exact ⟨x, hx, y, hy, rfl⟩

theorem nodup_gridPairs (n : ℕ) : (gridPairs n).Nodup := by
  rw [gridPairs, List.nodup_flatMap]
  constructor
  · intro x _
    refine List.Nodup.map ?_ (nodup_gridIdx n)
    intro y₁ y₂ h
    simpa using congrArg Prod.snd h
  · refine ((nodup_gridIdx n).pairwise_of_forall_ne fun x₁ _ x₂ _ h => h).imp ?_
    intro x₁ x₂ hne
    simp only [Function.onFun, List.disjoint_left, List.mem_map]
    rintro p ⟨y₁, _, rfl⟩ ⟨y₂, _, h⟩
    exact hne (by simpa using congrArg Prod.fst h.symm)

theorem slot_inj {b : ℤ} (hb : 0 < b) {p q : ℤ × ℤ} (h : slot b p = slot b q) : p = q := by
  obtain ⟨p₁, p₂⟩ := p
  obtain ⟨q₁, q₂⟩ := q
  simp only [slot, Prod.mk.injEq] at h
  have hb' : b ≠ 0 := by omega
  obtain ⟨h₁, h₂⟩ := h
  have e₁ := mul_right_cancel₀ hb' h₁
  have e₂ := mul_right_cancel₀ hb' h₂
  simp [e₁, e₂]

/-- The absolute block coordinate registered for loop pair `p` when the
centre is `c`. -/
def aKey (cfg : Cfg) (c : ℤ × ℤ) (p : ℤ × ℤ) : ℤ × ℤ :=
  (p.1 * cfg.block_size + c.1, p.2 * cfg.block_size + c.2)

/-- The `map_grid_block2coords` entry registered for loop pair `p`. -/
def mapEntry (cfg : Cfg) (c : ℤ × ℤ) (p : ℤ × ℤ) : (ℤ × ℤ) × (ℤ × ℤ) :=
  (aKey cfg c p, slot cfg.block_size p)

theorem sameReady_refl (s : BlockState) : sameReady s s := ⟨rfl, rfl, rfl⟩

theorem sameReady_trans {a b c : BlockState} (h₁ : sameReady a b) (h₂ : sameReady b c) :
    sameReady a c :=
  ⟨h₁.1.trans h₂.1, h₁.2.1.trans h₂.2.1, h₁.2.2.trans h₂.2.2⟩

theorem getElem_set_self_of_lt {α : Type} {l : List α} {n : ℕ} {a : α} (h : n < l.length) :
    (l.set n a)[n]? = some a := by
  simp [List.getElem?_set_self', List.getElem?_eq_getElem h]

theorem buildStep_store (cfg : Cfg) (c : ℤ × ℤ) (gs : GridState) (p : ℤ × ℤ) :
    (buildStep cfg c gs p).store =
      gs.store ++ [{ emptyState cfg with is_padding := isPad cfg.num_blocks p.1 p.2 }] := rfl

theorem buildStep_tracker (cfg : Cfg) (c : ℤ × ℤ) (gs : GridState) (p : ℤ × ℤ) :
    (buildStep cfg c gs p).tracker =
      gs.tracker ++ [(slot cfg.block_size p, gs.store.length)] := rfl

theorem buildStep_bmap (cfg : Cfg) (c : ℤ × ℤ) (gs : GridState) (p : ℤ × ℤ) :
    (buildStep cfg c gs p).blockMap = gs.blockMap ++ [mapEntry cfg c p] := rfl

theorem buildStep_current (cfg : Cfg) (c : ℤ × ℤ) (gs : GridState) (p : ℤ × ℤ) :
    (buildStep cfg c gs p).current = gs.current := rfl

theorem build_fold_bmap (cfg : Cfg) (c : ℤ × ℤ) (l : List (ℤ × ℤ)) (acc : GridState) :
    (l.foldl (buildStep cfg c) acc).blockMap = acc.blockMap ++ l.map (mapEntry cfg c) := by
  induction l generalizing acc with
  | nil => simp
  | cons p rest ih =>
    simp only [List.foldl_cons, List.map_cons, ih, buildStep_bmap, List.append_assoc,
      List.singleton_append]

theorem build_fold_tracker_keys (cfg : Cfg) (c : ℤ × ℤ) (l : List (ℤ × ℤ)) (acc : GridState) :
    (l.foldl (buildStep cfg c) acc).tracker.map Prod.fst =
      acc.tracker.map Prod.fst ++ l.map (slot cfg.block_size) := by
  induction l generalizing acc with
  | nil => simp
  | cons p rest ih =>
    simp only [List.foldl_cons, List.map_cons, ih, buildStep_tracker, List.map_append,
      List.map_cons, List.map_nil, List.append_assoc, List.singleton_append]

theorem build_fold_current (cfg : Cfg) (c : ℤ × ℤ) (l : List (ℤ × ℤ)) (acc : GridState) :
    (l.foldl (buildStep cfg c) acc).current = acc.current := by
  induction l generalizing acc with
  | nil => rfl
  | cons p rest ih => simp only [List.foldl_cons, ih, buildStep_current]

theorem build_fold_refs_lt (cfg : Cfg) (c : ℤ × ℤ) (l : List (ℤ × ℤ)) (acc : GridState)
    (hacc : ∀ kv ∈ acc.tracker, kv.2 < acc.store.length) :
    ∀ kv ∈ (l.foldl (buildStep cfg c) acc).tracker,
      kv.2 < (l.foldl (buildStep cfg c) acc).store.length := by
  induction l generalizing acc with
  | nil => exact hacc
  | cons p rest ih =>
    refine ih (buildStep cfg c acc p) ?_
    intro kv hkv
    rw [buildStep_tracker] at hkv
    rw [buildStep_store, List.length_append]
    rcases List.mem_append.mp hkv with h | h
    · exact lt_of_lt_of_le (hacc kv h) (by simp)
    · simp only [List.mem_singleton] at h
      subst h
      simp

theorem build_fold_preserve (cfg : Cfg) (c : ℤ × ℤ) (l : List (ℤ × ℤ)) (acc : GridState)
    (s : ℤ × ℤ) (r : ℕ) (st : BlockState)
    (htr : alookup acc.tracker s = some r) (hst : acc.store[r]? = some st) :
    alookup (l.foldl (buildStep cfg c) acc).tracker s = some r ∧
      (l.foldl (buildStep cfg c) acc).store[r]? = some st := by
  induction l generalizing acc with
  | nil => exact ⟨htr, hst⟩
  | cons p rest ih =>
    refine ih (buildStep cfg c acc p) ?_ ?_
    · rw [buildStep_tracker, alookup_append, htr]
    · rw [buildStep_store]
      have hr : r < acc.store.length := (List.getElem?_eq_some.mp hst).1
      rw [List.getElem?_append_left hr]
      exact hst

theorem stateAt_eq {gs : GridState} {s : ℤ × ℤ} {r : ℕ} {st : BlockState}
    (h₁ : alookup gs.tracker s = some r) (h₂ : gs.store[r]? = some st) :
    stateAt gs s = some st := by
  simp [stateAt, h₁, h₂]

/-- After `build_block_grid`'s loop runs over a list of pairwise-distinct
pairs none of whose slots is already tracked, each visited pair's slot holds
a fresh empty state whose padding flag is the ring test of its indices. -/
theorem build_fold_stateAt (cfg : Cfg) (c : ℤ × ℤ) (hb : 0 < cfg.block_size)
    (l : List (ℤ × ℤ)) (acc : GridState) (hnd : l.Nodup)
    (hfree : ∀ q ∈ l, alookup acc.tracker (slot cfg.block_size q) = none) :
    ∀ p ∈ l, stateAt (l.foldl (buildStep cfg c) acc) (slot cfg.block_size p) =
      some { emptyState cfg with is_padding := isPad cfg.num_blocks p.1 p.2 } := by
  induction l generalizing acc with
  | nil => intro p hp; simp at hp
  | cons q rest ih =>
    intro p hp
    rcases List.mem_cons.mp hp with rfl | hp'
    · have htr : alookup (buildStep cfg c acc p).tracker (slot cfg.block_size p) =
          some acc.store.length := by
        rw [buildStep_tracker, alookup_append, hfree p (List.mem_cons_self _ _)]
        simp [alookup]
      have hst : (buildStep cfg c acc p).store[acc.store.length]? =
          some { emptyState cfg with is_padding := isPad cfg.num_blocks p.1 p.2 } := by
        rw [buildStep_store]
        exact List.getElem?_concat_length _ _
      obtain ⟨h₁, h₂⟩ := build_fold_preserve cfg c rest (buildStep cfg c acc p) _ _ _ htr hst
      exact stateAt_eq h₁ h₂
    · refine ih (buildStep cfg c acc q) hnd.of_cons ?_ p hp'
      intro q' hq'
      rw [buildStep_tracker, alookup_append, hfree q' (List.mem_cons_of_mem _ hq')]
      have hne : slot cfg.block_size q ≠ slot cfg.block_size q' := by
        intro h
        exact (List.nodup_cons.mp hnd).1 ((slot_inj hb h) ▸ hq')
      simp [alookup, hne]

theorem shiftStep_bmap (cfg : Cfg) (old : GridState) (c' : ℤ × ℤ) (acc : GridState)
    (p : ℤ × ℤ) :
    (shiftStep cfg old c' acc p).blockMap = acc.blockMap ++ [mapEntry cfg c' p] := rfl

theorem shiftStep_current (cfg : Cfg) (old : GridState) (c' : ℤ × ℤ) (acc : GridState)
    (p : ℤ × ℤ) :
    (shiftStep cfg old c' acc p).current = acc.current := rfl

theorem shiftStep_tracker_reuse {cfg : Cfg} {old : GridState} {c' : ℤ × ℤ} (acc : GridState)
    {p s2 : ℤ × ℤ} (h : alookup old.blockMap (aKey cfg c' p) = some s2) :
    (shiftStep cfg old c' acc p).tracker =
      acc.tracker ++ [(slot cfg.block_size p, (alookup old.tracker s2).getD 0)] := by
  have h' : alookup old.blockMap
      ((slot cfg.block_size p).1 + c'.1, (slot cfg.block_size p).2 + c'.2) = some s2 := h
  simp [shiftStep, h']

theorem shiftStep_tracker_fresh {cfg : Cfg} {old : GridState} {c' : ℤ × ℤ} (acc : GridState)
    {p : ℤ × ℤ} (h : alookup old.blockMap (aKey cfg c' p) = none) :
    (shiftStep cfg old c' acc p).tracker =
      acc.tracker ++ [(slot cfg.block_size p, acc.store.length)] := by
  have h' : alookup old.blockMap
      ((slot cfg.block_size p).1 + c'.1, (slot cfg.block_size p).2 + c'.2) = none := h
  simp [shiftStep, h']

theorem shiftStep_tracker_keys (cfg : Cfg) (old : GridState) (c' : ℤ × ℤ) (acc : GridState)
    (p : ℤ × ℤ) :
    (shiftStep cfg old c' acc p).tracker.map Prod.fst =
      acc.tracker.map Prod.fst ++ [slot cfg.block_size p] := by
  cases h : alookup old.blockMap (aKey cfg c' p) with
  | none => simp [shiftStep_tracker_fresh acc h]
  | some s2 => simp [shiftStep_tracker_reuse acc h]

theorem setPadRef_length (store : List BlockState) (r : ℕ) (v : Bool) :
    (setPadRef store r v).length = store.length := by
  unfold setPadRef
  cases h : store[r]? <;> simp [List.length_set]

theorem setPadRef_get (r₀ : ℕ) (v : Bool) {store : List BlockState} {r : ℕ} {st : BlockState}
    (h : store[r]? = some st) :
    ∃ st', (setPadRef store r₀ v)[r]? = some st' ∧ sameReady st' st := by
  unfold setPadRef
  cases h₀ : store[r₀]? with
  | none => exact ⟨st, h, sameReady_refl st⟩
  | some st₀ =>
    by_cases hr : r₀ = r
    · subst hr
      have hst : st₀ = st := by
        rw [h₀] at h
        exact Option.some_inj.mp h
      subst hst
      have hlen : r₀ < store.length := (List.getElem?_eq_some.mp h).1
      exact ⟨{ st₀ with is_padding := v }, getElem_set_self_of_lt hlen, rfl, rfl, rfl⟩
    · exact ⟨st, by rw [List.getElem?_set_ne hr]; exact h, sameReady_refl st⟩

theorem shiftStep_store_len (cfg : Cfg) (old : GridState) (c' : ℤ × ℤ) (acc : GridState)
    (p : ℤ × ℤ) :
    acc.store.length ≤ (shiftStep cfg old c' acc p).store.length := by
  cases h₁ : alookup old.blockMap
      ((slot cfg.block_size p).1 + c'.1, (slot cfg.block_size p).2 + c'.2) <;>
    cases h₂ : alookup old.tracker (slot cfg.block_size p) <;>
      simp [shiftStep, h₁, h₂, setPadRef_length]

theorem shiftStep_store_get (cfg : Cfg) (old : GridState) (c' : ℤ × ℤ) {acc : GridState}
    (p : ℤ × ℤ) {r : ℕ} {st : BlockState} (h : acc.store[r]? = some st) :
    ∃ st', (shiftStep cfg old c' acc p).store[r]? = some st' ∧ sameReady st' st := by
  have hr : r < acc.store.length := (List.getElem?_eq_some.mp h).1
  cases h₁ : alookup old.blockMap
      ((slot cfg.block_size p).1 + c'.1, (slot cfg.block_size p).2 + c'.2) <;>
    cases h₂ : alookup old.tracker (slot cfg.block_size p)
  case none.none =>
    exact ⟨st, by simp only [shiftStep, h₁, h₂]; rw [List.getElem?_append_left hr]; exact h,
      sameReady_refl st⟩
  case none.some r₀ =>
    have h' : (acc.store ++ [emptyState cfg])[r]? = some st := by
      rw [List.getElem?_append_left hr]; exact h
    obtain ⟨st', hst', hsr⟩ := setPadRef_get r₀ (isPad cfg.num_blocks p.1 p.2) h'
    exact ⟨st', by simp only [shiftStep, h₁, h₂]; exact hst', hsr⟩
  case some.none s2 =>
    exact ⟨st, by simp only [shiftStep, h₁, h₂]; exact h, sameReady_refl st⟩
  case some.some s2 r₀ =>
    obtain ⟨st', hst', hsr⟩ := setPadRef_get r₀ (isPad cfg.num_blocks p.1 p.2) h
    exact ⟨st', by simp only [shiftStep, h₁, h₂]; exact hst', hsr⟩

theorem shiftStep_store_fresh {cfg : Cfg} {old : GridState} {c' : ℤ × ℤ} (acc : GridState)
    {p : ℤ × ℤ} (h : alookup old.blockMap (aKey cfg c' p) = none) :
    ∃ st', (shiftStep cfg old c' acc p).store[acc.store.length]? = some st' ∧
      sameReady st' (emptyState cfg) := by
  have h₁ : alookup old.blockMap
      ((slot cfg.block_size p).1 + c'.1, (slot cfg.block_size p).2 + c'.2) = none := h
  have hcat : (acc.store ++ [emptyState cfg])[acc.store.length]? = some (emptyState cfg) :=
    List.getElem?_concat_length _ _
  cases h₂ : alookup old.tracker (slot cfg.block_size p) with
  | none =>
    exact ⟨emptyState cfg, by simp only [shiftStep, h₁, h₂]; exact hcat,
      sameReady_refl _⟩
  | some r₀ =>
    obtain ⟨st', hst', hsr⟩ := setPadRef_get r₀ (isPad cfg.num_blocks p.1 p.2) hcat
    exact ⟨st', by simp only [shiftStep, h₁, h₂]; exact hst', hsr⟩

theorem shift_fold_bmap (cfg : Cfg) (old : GridState) (c' : ℤ × ℤ) (l : List (ℤ × ℤ))
    (acc : GridState) :
    (l.foldl (shiftStep cfg old c') acc).blockMap = acc.blockMap ++ l.map (mapEntry cfg c') := by
  induction l generalizing acc with
  | nil => simp
  | cons p rest ih =>
    simp only [List.foldl_cons, List.map_cons, ih, shiftStep_bmap, List.append_assoc,
      List.singleton_append]

theorem shift_fold_current (cfg : Cfg) (old : GridState) (c' : ℤ × ℤ) (l : List (ℤ × ℤ))
    (acc : GridState) :
    (l.foldl (shiftStep cfg old c') acc).current = acc.current := by
  induction l generalizing acc with
  | nil => rfl
  | cons p rest ih => simp only [List.foldl_cons, ih, shiftStep_current]

theorem shift_fold_tracker_keys (cfg : Cfg) (old : GridState) (c' : ℤ × ℤ) (l : List (ℤ × ℤ))
    (acc : GridState) :
    (l.foldl (shiftStep cfg old c') acc).tracker.map Prod.fst =
      acc.tracker.map Prod.fst ++ l.map (slot cfg.block_size) := by
  induction l generalizing acc with
  | nil => simp
  | cons p rest ih =>
    simp only [List.foldl_cons, List.map_cons, ih, shiftStep_tracker_keys, List.append_assoc,
      List.singleton_append]

theorem shift_fold_store_len (cfg : Cfg) (old : GridState) (c' : ℤ × ℤ) (l : List (ℤ × ℤ))
    (acc : GridState) :
    acc.store.length ≤ (l.foldl (shiftStep cfg old c') acc).store.length := by
  induction l generalizing acc with
  | nil => exact le_refl _
  | cons p rest ih =>
    exact le_trans (shiftStep_store_len cfg old c' acc p) (ih (shiftStep cfg old c' acc p))

theorem shift_fold_store_get (cfg : Cfg) (old : GridState) (c' : ℤ × ℤ) (l : List (ℤ × ℤ))
    (acc : GridState) (r : ℕ) (st : BlockState) (h : acc.store[r]? = some st) :
    ∃ st', (l.foldl (shiftStep cfg old c') acc).store[r]? = some st' ∧ sameReady st' st := by
  induction l generalizing acc st with
  | nil => exact ⟨st, h, sameReady_refl st⟩
  | cons p rest ih =>
    obtain ⟨st₁, h₁, hr₁⟩ := shiftStep_store_get cfg old c' p h
    obtain ⟨st₂, h₂, hr₂⟩ := ih (shiftStep cfg old c' acc p) st₁ h₁
    exact ⟨st₂, h₂, sameReady_trans hr₂ hr₁⟩

theorem shift_fold_preserve_tracker (cfg : Cfg) (old : GridState) (c' : ℤ × ℤ)
    (l : List (ℤ × ℤ)) (acc : GridState) (s : ℤ × ℤ) (r : ℕ)
    (h : alookup acc.tracker s = some r) :
    alookup (l.foldl (shiftStep cfg old c') acc).tracker s = some r := by
  induction l generalizing acc with
  | nil => exact h
  | cons p rest ih =>
    refine ih (shiftStep cfg old c' acc p) ?_
    cases hm : alookup old.blockMap (aKey cfg c' p) with
    | none => rw [shiftStep_tracker_fresh acc hm, alookup_append, h]
    | some s2 => rw [shiftStep_tracker_reuse acc hm, alookup_append, h]

/-- Reuse across `shift_block_grid`: a looped-over pair whose absolute
coordinate is present in the old map receives, in the new tracker, exactly
the ref (the object) the old tracker held for that absolute coordinate. -/
theorem shift_fold_reuse (cfg : Cfg) (old : GridState) (c' : ℤ × ℤ)
    (hb : 0 < cfg.block_size) (l : List (ℤ × ℤ)) (acc : GridState) (hnd : l.Nodup)
    (hfree : ∀ q ∈ l, alookup acc.tracker (slot cfg.block_size q) = none) :
    ∀ p ∈ l, ∀ s2 : ℤ × ℤ, ∀ r : ℕ,
      alookup old.blockMap (aKey cfg c' p) = some s2 →
      alookup old.tracker s2 = some r →
      alookup (l.foldl (shiftStep cfg old c') acc).tracker (slot cfg.block_size p) = some r := by
  induction l generalizing acc with
  | nil => intro p hp; simp at hp
  | cons q rest ih =>
    intro p hp s2 r hm htr
    rcases List.mem_cons.mp hp with rfl | hp'
    · have h₁ : alookup (shiftStep cfg old c' acc p).tracker (slot cfg.block_size p) =
          some r := by
        rw [shiftStep_tracker_reuse acc hm, alookup_append,
          hfree p (List.mem_cons_self _ _)]
        simp [alookup, htr]
      exact shift_fold_preserve_tracker cfg old c' rest _ _ _ h₁
    · refine ih (shiftStep cfg old c' acc q) hnd.of_cons ?_ p hp' s2 r hm htr
      intro q' hq'
      have hne : slot cfg.block_size q ≠ slot cfg.block_size q' := by
        intro h
        exact (List.nodup_cons.mp hnd).1 ((slot_inj hb h) ▸ hq')
      cases hm' : alookup old.blockMap (aKey cfg c' q) with
      | none =>
        rw [shiftStep_tracker_fresh acc hm', alookup_append,
          hfree q' (List.mem_cons_of_mem _ hq')]
        simp [alookup, hne]
      | some s2' =>
        rw [shiftStep_tracker_reuse acc hm', alookup_append,
          hfree q' (List.mem_cons_of_mem _ hq')]
        simp [alookup, hne]

/-- Fresh blocks across `shift_block_grid`: a looped-over pair whose
absolute coordinate is NOT in the old map receives a freshly allocated
state whose three readiness flags are those of the empty state. -/
theorem shift_fold_fresh (cfg : Cfg) (old : GridState) (c' : ℤ × ℤ)
    (hb : 0 < cfg.block_size) (l : List (ℤ × ℤ)) (acc : GridState) (hnd : l.Nodup)
    (hfree : ∀ q ∈ l, alookup acc.tracker (slot cfg.block_size q) = none) :
    ∀ p ∈ l, alookup old.blockMap (aKey cfg c' p) = none →
      ∃ r st, alookup (l.foldl (shiftStep cfg old c') acc).tracker (slot cfg.block_size p) =
          some r ∧
        (l.foldl (shiftStep cfg old c') acc).store[r]? = some st ∧
        sameReady st (emptyState cfg) := by
  induction l generalizing acc with
  | nil => intro p hp; simp at hp
  | cons q rest ih =>
    intro p hp hm
    rcases List.mem_cons.mp hp with rfl | hp'
    · have h₁ : alookup (shiftStep cfg old c' acc p).tracker (slot cfg.block_size p) =
          some acc.store.length := by
        rw [shiftStep_tracker_fresh acc hm, alookup_append,
          hfree p (List.mem_cons_self _ _)]
        simp [alookup]
      obtain ⟨st₁, hst₁, hr₁⟩ := shiftStep_store_fresh acc hm
      obtain ⟨st₂, hst₂, hr₂⟩ :=
        shift_fold_store_get cfg old c' rest (shiftStep cfg old c' acc p) _ _ hst₁
      exact ⟨acc.store.length, st₂,
        shift_fold_preserve_tracker cfg old c' rest _ _ _ h₁, hst₂,
        sameReady_trans hr₂ hr₁⟩
    · refine ih (shiftStep cfg old c' acc q) hnd.of_cons ?_ p hp' hm
      intro q' hq'
      have hne : slot cfg.block_size q ≠ slot cfg.block_size q' := by
        intro h
        exact (List.nodup_cons.mp hnd).1 ((slot_inj hb h) ▸ hq')
      cases hm' : alookup old.blockMap (aKey cfg c' q) with
      | none =>
        rw [shiftStep_tracker_fresh acc hm', alookup_append,
          hfree q' (List.mem_cons_of_mem _ hq')]
        simp [alookup, hne]
      | some s2' =>
        rw [shiftStep_tracker_reuse acc hm', alookup_append,
          hfree q' (List.mem_cons_of_mem _ hq')]
        simp [alookup, hne]

theorem shiftStep_store_len_fresh {cfg : Cfg} {old : GridState} {c' : ℤ × ℤ}
    (acc : GridState) {p : ℤ × ℤ} (h : alookup old.blockMap (aKey cfg c' p) = none) :
    (shiftStep cfg old c' acc p).store.length = acc.store.length + 1 := by
  have h₁ : alookup old.blockMap
      ((slot cfg.block_size p).1 + c'.1, (slot cfg.block_size p).2 + c'.2) = none := h
  cases h₂ : alookup old.tracker (slot cfg.block_size p) <;>
    simp [shiftStep, h₁, h₂, setPadRef_length]

theorem shiftStep_store_len_reuse {cfg : Cfg} {old : GridState} {c' : ℤ × ℤ}
    (acc : GridState) {p s2 : ℤ × ℤ} (h : alookup old.blockMap (aKey cfg c' p) = some s2) :
    (shiftStep cfg old c' acc p).store.length = acc.store.length := by
  have h₁ : alookup old.blockMap
      ((slot cfg.block_size p).1 + c'.1, (slot cfg.block_size p).2 + c'.2) = some s2 := h
  cases h₂ : alookup old.tracker (slot cfg.block_size p) <;>
    simp [shiftStep, h₁, h₂, setPadRef_length]

theorem shift_fold_refs_lt (cfg : Cfg) (old : GridState) (c' : ℤ × ℤ) (l : List (ℤ × ℤ))
    (acc : GridState)
    (hold : ∀ a s2, alookup old.blockMap a = some s2 →
      ∃ r, alookup old.tracker s2 = some r ∧ r < old.store.length)
    (hacc : ∀ kv ∈ acc.tracker, kv.2 < acc.store.length)
    (hlen : old.store.length ≤ acc.store.length) :
    ∀ kv ∈ (l.foldl (shiftStep cfg old c') acc).tracker,
      kv.2 < (l.foldl (shiftStep cfg old c') acc).store.length := by
  induction l generalizing acc with
  | nil => exact hacc
  | cons p rest ih =>
    refine ih (shiftStep cfg old c' acc p) ?_
      (le_trans hlen (shiftStep_store_len cfg old c' acc p))
    intro kv hkv
    cases hm : alookup old.blockMap (aKey cfg c' p) with
    | none =>
      rw [shiftStep_tracker_fresh acc hm] at hkv
      rw [shiftStep_store_len_fresh acc hm]
      rcases List.mem_append.mp hkv with h | h
      · exact lt_of_lt_of_le (hacc kv h) (Nat.le_succ _)
      · simp only [List.mem_singleton] at h
        subst h
        exact Nat.lt_succ_self _
    | some s2 =>
      rw [shiftStep_tracker_reuse acc hm] at hkv
      rw [shiftStep_store_len_reuse acc hm]
      rcases List.mem_append.mp hkv with h | h
      · exact hacc kv h
      · simp only [List.mem_singleton] at h
        subst h
        obtain ⟨r, hr, hrlt⟩ := hold _ _ hm
        simp only [hr, Option.getD_some]
        exact lt_of_lt_of_le hrlt hlen

/-- The structural invariant of the grid bookkeeping: the absolute map is
exactly the looped-over grid keyed by `slot + current`, the tracker's keys
are exactly the grid slots in loop order, and every tracked ref points into
the heap. -/
structure GridInv (cfg : Cfg) (gs : GridState) : Prop where
  bmap_eq : gs.blockMap = (gridPairs cfg.num_blocks).map (mapEntry cfg gs.current)
  tracker_keys : gs.tracker.map Prod.fst =
    (gridPairs cfg.num_blocks).map (slot cfg.block_size)
  refs_lt : ∀ kv ∈ gs.tracker, kv.2 < gs.store.length

theorem buildGrid_inv (cfg : Cfg) (c : ℤ × ℤ) : GridInv cfg (buildGrid cfg c) := by
  have hc : (buildGrid cfg c).current = c := build_fold_current ..
  refine ⟨?_, ?_, ?_⟩
  · rw [hc]
    simpa using build_fold_bmap cfg c (gridPairs cfg.num_blocks)
      { store := [], tracker := [], blockMap := [], current := c }
  · simpa using build_fold_tracker_keys cfg c (gridPairs cfg.num_blocks)
      { store := [], tracker := [], blockMap := [], current := c }
  · exact build_fold_refs_lt cfg c (gridPairs cfg.num_blocks)
      { store := [], tracker := [], blockMap := [], current := c } (by simp)

/-- From the invariant: every value of the absolute map is a tracked slot
whose ref is a valid heap index. -/
theorem inv_map_value_tracked {cfg : Cfg} {gs : GridState} (hInv : GridInv cfg gs) :
    ∀ a s2, alookup gs.blockMap a = some s2 →
      ∃ r, alookup gs.tracker s2 = some r ∧ r < gs.store.length := by
  intro a s2 h
  have hmem := alookup_mem h
  rw [hInv.bmap_eq] at hmem
  obtain ⟨p, hp, hpe⟩ := List.mem_map.mp hmem
  have hs2 : s2 = slot cfg.block_size p := by
    have := congrArg Prod.snd hpe
    simpa [mapEntry] using this.symm
  have hkey : s2 ∈ gs.tracker.map Prod.fst := by
    rw [hInv.tracker_keys, hs2]
    exact List.mem_map_of_mem _ hp
  obtain ⟨r, hr⟩ := alookup_isSome_of_mem_keys hkey
  exact ⟨r, hr, hInv.refs_lt _ (alookup_mem hr)⟩

theorem shiftTo_inv {cfg : Cfg} {gs : GridState} (hInv : GridInv cfg gs) (c' : ℤ × ℤ) :
    GridInv cfg (shiftTo cfg gs c') := by
  refine ⟨?_, ?_, ?_⟩
  · show (shiftGrid cfg gs c').blockMap = _
    simpa using shift_fold_bmap cfg gs c' (gridPairs cfg.num_blocks)
      { store := gs.store, tracker := [], blockMap := [], current := gs.current }
  · show (shiftGrid cfg gs c').tracker.map Prod.fst = _
    simpa using shift_fold_tracker_keys cfg gs c' (gridPairs cfg.num_blocks)
      { store := gs.store, tracker := [], blockMap := [], current := gs.current }
  · show ∀ kv ∈ (shiftGrid cfg gs c').tracker, kv.2 < (shiftGrid cfg gs c').store.length
    exact shift_fold_refs_lt cfg gs c' (gridPairs cfg.num_blocks)
      { store := gs.store, tracker := [], blockMap := [], current := gs.current }
      (inv_map_value_tracked hInv) (by simp) (le_refl _)

theorem setField_inv {cfg : Cfg} {gs : GridState} (hInv : GridInv cfg gs) (a : ℤ × ℤ)
    (f : BlockState → BlockState) : GridInv cfg (setField gs a f) := by
  unfold setField
  cases h₁ : alookup gs.blockMap a with
  | none => exact hInv
  | some s =>
    dsimp only
    cases h₂ : alookup gs.tracker s with
    | none => exact hInv
    | some r =>
      dsimp only
      cases h₃ : gs.store[r]? with
      | none => exact hInv
      | some st =>
        dsimp only
        refine ⟨hInv.bmap_eq, hInv.tracker_keys, ?_⟩
        intro kv hkv
        simp only [List.length_set]
        exact hInv.refs_lt kv hkv

theorem applyEv_inv {cfg : Cfg} {gs : GridState} (hInv : GridInv cfg gs) (e : Ev) :
    GridInv cfg (applyEv gs e) := by
  cases e with
  | craterMeta a v => exact setField_inv hInv a _
  | craterData a => exact setField_inv hInv a _
  | terrain a => exact setField_inv hInv a _

theorem reachable_inv {cfg : Cfg} {gs : GridState} (h : Reachable cfg gs) : GridInv cfg gs := by
  induction h with
  | base => exact buildGrid_inv cfg (0, 0)
  | step_shift c' _ ih => exact shiftTo_inv ih c'
  | step_ev e _ ih => exact applyEv_inv ih e

theorem inv_stateAt_total {cfg : Cfg} {gs : GridState} (hInv : GridInv cfg gs) :
    ∀ p ∈ gridPairs cfg.num_blocks, ∃ r st,
      alookup gs.tracker (slot cfg.block_size p) = some r ∧ gs.store[r]? = some st := by
  intro p hp
  have hkey : slot cfg.block_size p ∈ gs.tracker.map Prod.fst := by
    rw [hInv.tracker_keys]
    exact List.mem_map_of_mem _ hp
  obtain ⟨r, hr⟩ := alookup_isSome_of_mem_keys hkey
  have hlt := hInv.refs_lt _ (alookup_mem hr)
  exact ⟨r, gs.store[r], hr, List.getElem?_eq_getElem hlt⟩

theorem aKey_inj {cfg : Cfg} (hb : 0 < cfg.block_size) (c : ℤ × ℤ) {p q : ℤ × ℤ}
    (h : aKey cfg c p = aKey cfg c q) : p = q := by
  obtain ⟨p₁, p₂⟩ := p
  obtain ⟨q₁, q₂⟩ := q
  simp only [aKey, Prod.mk.injEq] at h
  have hb' : cfg.block_size ≠ 0 := by omega
  have h₁ : p₁ * cfg.block_size = q₁ * cfg.block_size := by omega
  have h₂ : p₂ * cfg.block_size = q₂ * cfg.block_size := by omega
  have e₁ := mul_right_cancel₀ hb' h₁
  have e₂ := mul_right_cancel₀ hb' h₂
  simp [e₁, e₂]

/-- C9: in every reachable state, `map_grid_block2coords` is a bijection
between the absolute block coordinates of the window and the relative
slots: every slot `(x * block_size, y * block_size)` of the grid is the
image of exactly one absolute coordinate, namely `slot + current`, and
every map entry has that shape. -/
theorem C9_map_bijection (cfg : Cfg) (gs : GridState) (hb : 0 < cfg.block_size)
    (hreach : Reachable cfg gs) :
    (∀ x ∈ gridIdx cfg.num_blocks, ∀ y ∈ gridIdx cfg.num_blocks,
        alookup gs.blockMap
          (x * cfg.block_size + gs.current.1, y * cfg.block_size + gs.current.2) =
          some (x * cfg.block_size, y * cfg.block_size)) ∧
    (∀ a s, alookup gs.blockMap a = some s →
        a = (s.1 + gs.current.1, s.2 + gs.current.2) ∧
        ∃ x ∈ gridIdx cfg.num_blocks, ∃ y ∈ gridIdx cfg.num_blocks,
          s = (x * cfg.block_size, y * cfg.block_size)) := by
  have hInv := reachable_inv hreach
  have hmap : (gridPairs cfg.num_blocks).map (mapEntry cfg gs.current) =
      (gridPairs cfg.num_blocks).map
        fun p => (aKey cfg gs.current p, slot cfg.block_size p) := rfl
  constructor
  · intro x hx y hy
    have hp : ((x, y) : ℤ × ℤ) ∈ gridPairs cfg.num_blocks := mem_gridPairs.mpr ⟨hx, hy⟩
    have hlk := alookup_map_of_inj (gridPairs cfg.num_blocks) (aKey cfg gs.current)
      (slot cfg.block_size) (fun a₁ _ a₂ _ h => aKey_inj hb gs.current h) hp
    rw [hInv.bmap_eq, hmap]
    exact hlk
  · intro a s h
    have hmem := alookup_mem h
    rw [hInv.bmap_eq] at hmem
    obtain ⟨p, hp, hpe⟩ := List.mem_map.mp hmem
    have ha : a = aKey cfg gs.current p := by
      have := congrArg Prod.fst hpe
      simpa [mapEntry] using this.symm
    have hs : s = slot cfg.block_size p := by
      have := congrArg Prod.snd hpe
      simpa [mapEntry] using this.symm
    obtain ⟨hx, hy⟩ := mem_gridPairs.mp hp
    refine ⟨?_, p.1, hx, p.2, hy, by rw [hs]; rfl⟩
    rw [ha, hs]
    rfl

theorem all_map_general {α β : Type} (l : List α) (f : α → β) (p : β → Bool) :
    (l.map f).all p = l.all fun a => p (f a) := by
  induction l with
  | nil => rfl
  | cons a t ih => simp [ih]

theorem blockReady_iff {gs : GridState} {s : ℤ × ℤ} :
    blockReady gs s = true ↔
      ∃ st, stateAt gs s = some st ∧ st.has_crater_metadata = true ∧
        st.has_crater_data = true ∧ st.has_terrain_data = true := by
  unfold blockReady stateAt
  cases h₁ : alookup gs.tracker s with
  | none => simp
  | some r =>
    dsimp only
    cases h₂ : gs.store[r]? with
    | none => simp
    | some st => simp [Bool.and_eq_true, and_assoc]

/-- C1 (amended): in every reachable state, `is_map_done()` returns true
iff every block of the grid — padding blocks included — has all three
readiness flags true. -/
theorem C1_isMapDone_all_blocks (cfg : Cfg) (gs : GridState) (hreach : Reachable cfg gs) :
    isMapDone gs = true ↔
      ∀ x ∈ gridIdx cfg.num_blocks, ∀ y ∈ gridIdx cfg.num_blocks,
        ∃ st, stateAt gs (x * cfg.block_size, y * cfg.block_size) = some st ∧
          st.has_crater_metadata = true ∧ st.has_crater_data = true ∧
          st.has_terrain_data = true := by
  have hInv := reachable_inv hreach
  unfold isMapDone
  rw [hInv.bmap_eq, all_map_general, List.all_eq_true]
  constructor
  · intro h x hx y hy
    have hp : ((x, y) : ℤ × ℤ) ∈ gridPairs cfg.num_blocks := mem_gridPairs.mpr ⟨hx, hy⟩
    exact blockReady_iff.mp (h _ hp)
  · intro h p hp
    obtain ⟨hx, hy⟩ := mem_gridPairs.mp hp
    exact blockReady_iff.mpr (h p.1 hx p.2 hy)

/-- A small concrete configuration used by the concrete scenarios:
one-block window (`num_blocks = 0`), unit blocks, crater generation
disabled (so both crater flags are pre-set true). -/
def cfg0 : Cfg :=
  { num_blocks := 0, block_size := 1, resolution := 1, generate_craters := false }

/-- The readiness predicate claimed for `is_map_done` by the spec, written
from the claim's words: every non-padding block of the grid has all three
readiness flags true (padding blocks are ignored). -/
def specNonPaddingReady (gs : GridState) : Bool :=
  gs.blockMap.all fun kv =>
    match stateAt gs kv.2 with
    | some st =>
        st.is_padding ||
          (st.has_crater_metadata && st.has_crater_data && st.has_terrain_data)
    | none => true

/-- The reachable state refuting C1: build the grid with craters disabled,
run the warm-up shift of the first `update((0, 0))`, then mark the single
interior block's terrain data collected. -/
def gsC1 : GridState :=
  applyEv (shiftTo cfg0 (buildGrid cfg0 (0, 0)) (0, 0)) (Ev.terrain (0, 0))

/-- C1 counterexample: a reachable state in which every non-padding block
has all three readiness flags true, yet `is_map_done()` returns false,
because the source iterates over every entry of `map_grid_block2coords`,
padding blocks included. -/
theorem C1_counterexample :
    Reachable cfg0 gsC1 ∧ specNonPaddingReady gsC1 = true ∧ isMapDone gsC1 = false :=
  ⟨Reachable.step_ev _ (Reachable.step_shift _ Reachable.base), by decide, by decide⟩

/-- The grid after one shift of the window centre from `(0,0)` to `(1,0)`. -/
def gsA : GridState := shiftTo cfg0 (buildGrid cfg0 (0, 0)) (1, 0)

/-- C5: the padding recomputation of `shift_block_grid` writes through the
OLD tracker (`self.block_grid_tracker` instead of `new_block_grid_tracker`),
so after shifting the centre to `(1,0)` the newly created outermost-ring
block at relative slot `(block_size, 0)` keeps `is_padding = False`,
although the ring test for its position is true. -/
theorem C5_padding_not_recomputed :
    Reachable cfg0 gsA ∧
    isPad cfg0.num_blocks 1 0 = true ∧
    stateAt gsA (1, 0) =
      some { has_crater_metadata := true, has_crater_data := true,
             has_terrain_data := false, is_padding := false } :=
  ⟨Reachable.step_shift _ Reachable.base, by decide, by decide⟩

/-- C10 counterexample: calling `shift_block_grid` with the UNCHANGED
centre `(1,0)` from the reachable state `gsA` changes the flag values of
the state stored at relative slot `(0,0)`: its `is_padding` flips from
true to false (the padding write through the old tracker hits the reused
object of a different slot). -/
theorem C10_counterexample :
    Reachable cfg0 gsA ∧ gsA.current = (1, 0) ∧
    stateAt gsA (0, 0) =
      some { has_crater_metadata := true, has_crater_data := true,
             has_terrain_data := false, is_padding := true } ∧
    stateAt (shiftTo cfg0 gsA (1, 0)) (0, 0) =
      some { has_crater_metadata := true, has_crater_data := true,
             has_terrain_data := false, is_padding := false } :=
  ⟨Reachable.step_shift _ Reachable.base, by decide, by decide, by decide⟩

/-- The grid after a second shift of the centre, from `(1,0)` to `(2,0)`. -/
def gsB : GridState := shiftTo cfg0 gsA (2, 0)

/-- C4 counterexample: absolute block `(1,0)` is present before and after
the shift of `gsA` to centre `(2,0)`; the new tracker holds the very same
object (the same ref) for it, but NOT with identical flag values: the
`is_padding` value the old tracker held was true and it is false after the
shift (mutated by the padding write-through of the same call). -/
theorem C4_counterexample :
    Reachable cfg0 gsA ∧
    alookup gsA.blockMap (1, 0) = some (0, 0) ∧
    stateAt gsA (0, 0) =
      some { has_crater_metadata := true, has_crater_data := true,
             has_terrain_data := false, is_padding := true } ∧
    alookup gsA.tracker (0, 0) = alookup gsB.tracker (-1, 0) ∧
    stateAt gsB (-1, 0) =
      some { has_crater_metadata := true, has_crater_data := true,
             has_terrain_data := false, is_padding := false } :=
  ⟨Reachable.step_shift _ Reachable.base, by decide, by decide, by decide, by decide⟩

/-- C4 (amended): for every `shift_block_grid` call, (a) each relative
slot whose absolute coordinate was present in the old map receives the
very same state object (the same ref) the old tracker held for it, and
that object's three readiness flags keep their values (only `is_padding`
may be rewritten by the padding write-through); (b) each slot whose
absolute coordinate is new receives a freshly allocated state whose
readiness flags are those of the empty state: `has_terrain_data` false and
the two crater flags true exactly when crater generation is disabled. -/
theorem C4_shift_reuse (cfg : Cfg) (gs : GridState) (c' : ℤ × ℤ) (hb : 0 < cfg.block_size) :
    (∀ p ∈ gridPairs cfg.num_blocks, ∀ s2 : ℤ × ℤ, ∀ r : ℕ,
        alookup gs.blockMap (aKey cfg c' p) = some s2 →
        alookup gs.tracker s2 = some r →
        alookup (shiftTo cfg gs c').tracker (slot cfg.block_size p) = some r ∧
        ∀ st, gs.store[r]? = some st →
          ∃ st', (shiftTo cfg gs c').store[r]? = some st' ∧ sameReady st' st) ∧
    (∀ p ∈ gridPairs cfg.num_blocks,
        alookup gs.blockMap (aKey cfg c' p) = none →
        ∃ r st, alookup (shiftTo cfg gs c').tracker (slot cfg.block_size p) = some r ∧
          (shiftTo cfg gs c').store[r]? = some st ∧ sameReady st (emptyState cfg)) := by
  constructor
  · intro p hp s2 r hm htr
    constructor
    · exact shift_fold_reuse cfg gs c' hb (gridPairs cfg.num_blocks)
        { store := gs.store, tracker := [], blockMap := [], current := gs.current }
        (nodup_gridPairs _) (fun q _ => rfl) p hp s2 r hm htr
    · intro st hst
      exact shift_fold_store_get cfg gs c' (gridPairs cfg.num_blocks)
        { store := gs.store, tracker := [], blockMap := [], current := gs.current }
        r st hst
  · intro p hp hm
    exact shift_fold_fresh cfg gs c' hb (gridPairs cfg.num_blocks)
      { store := gs.store, tracker := [], blockMap := [], current := gs.current }
      (nodup_gridPairs _) (fun q _ => rfl) p hp hm

/-- Witness for C4 (amended): concrete instance at `cfg0`, shifting the
freshly built grid to centre `(1,0)`; absolute block `(0,0)` (slot
`(-1,0)` of the new grid) is reused with its ref `4` and readiness intact,
and absolute block `(2,0)` (slot `(1,0)`) is new and freshly allocated. -/
theorem C4_shift_reuse_witness :
    ((0 : ℤ) < cfg0.block_size ∧
      ((-1, 0) : ℤ × ℤ) ∈ gridPairs cfg0.num_blocks ∧
      alookup (buildGrid cfg0 (0, 0)).blockMap (aKey cfg0 (1, 0) (-1, 0)) = some (0, 0) ∧
      alookup (buildGrid cfg0 (0, 0)).tracker (0, 0) = some 4 ∧
      ((1, 0) : ℤ × ℤ) ∈ gridPairs cfg0.num_blocks ∧
      alookup (buildGrid cfg0 (0, 0)).blockMap (aKey cfg0 (1, 0) (1, 0)) = none) ∧
    (alookup gsA.tracker (slot cfg0.block_size (-1, 0)) = some 4 ∧
      ∀ st, (buildGrid cfg0 (0, 0)).store[4]? = some st →
        ∃ st', gsA.store[4]? = some st' ∧ sameReady st' st) ∧
    (∃ r st, alookup gsA.tracker (slot cfg0.block_size (1, 0)) = some r ∧
      gsA.store[r]? = some st ∧ sameReady st (emptyState cfg0)) :=
  ⟨⟨by decide, by decide, by decide, by decide, by decide, by decide⟩,
    (C4_shift_reuse cfg0 (buildGrid cfg0 (0, 0)) (1, 0) (by decide)).1 (-1, 0) (by decide)
      (0, 0) 4 (by decide) (by decide),
    (C4_shift_reuse cfg0 (buildGrid cfg0 (0, 0)) (1, 0) (by decide)).2 (1, 0) (by decide)
      (by decide)⟩

/-- `x_min_s` of `shift_dem` for one axis: the Python branch on the sign of
the shift, with the slice endpoint normalised and clamped the way numpy
basic slicing does. -/
def sliceSrcLo (n d : ℤ) : ℤ :=
  clampIdx n (if 0 < d then 0 else if d = 0 then 0 else -d)

/-- `x_max_s` of `shift_dem` for one axis. -/
def sliceSrcHi (n d : ℤ) : ℤ :=
  clampIdx n (if 0 < d then -d else if d = 0 then n else n)

/-- `x_min_t` of `shift_dem` for one axis. -/
def sliceTgtLo (n d : ℤ) : ℤ :=
  clampIdx n (if 0 < d then d else 0)

/-- `x_max_t` of `shift_dem` for one axis. -/
def sliceTgtHi (n d : ℤ) : ℤ :=
  clampIdx n (if 0 < d then n else if d = 0 then n else d)

/-- `shift_dem(pixel_shift)`: the buffer is a square `n × n` array of
samples (a total function restricted to `[0,n) × [0,n)`).  If the shift
exceeds the buffer size (`x_shift > shape[0] or y_shift > shape[1]`) the
whole buffer is zeroed; otherwise the source rectangle is copied onto the
target rectangle (numpy slice-assignment, overlap-safe since numpy 1.13)
and the newly exposed rows/columns are zero-filled. -/
def shiftDem (n : ℤ) (sh : ℤ × ℤ) (dem : ℤ → ℤ → ℚ) : ℤ → ℤ → ℚ :=
  if n < sh.1 ∨ n < sh.2 then fun _ _ => 0
  else fun i j =>
    let copied :=
      if sliceTgtLo n sh.1 ≤ i ∧ i < sliceTgtHi n sh.1 ∧
          sliceTgtLo n sh.2 ≤ j ∧ j < sliceTgtHi n sh.2 then
        dem (i - sliceTgtLo n sh.1 + sliceSrcLo n sh.1)
          (j - sliceTgtLo n sh.2 + sliceSrcLo n sh.2)
      else dem i j
    -- the source's x-axis and y-axis zero fills are two independent
    -- statements; since both write 0, the first-match cascade below
    -- computes the same final array
    if sh.1 < 0 ∧ sliceTgtHi n sh.1 ≤ i then 0
    else if 0 < sh.1 ∧ i < sliceTgtLo n sh.1 then 0
    else if sh.2 < 0 ∧ sliceTgtHi n sh.2 ≤ j then 0
    else if 0 < sh.2 ∧ j < sliceTgtLo n sh.2 then 0
    else copied

theorem sliceTgtLo_eq {n d : ℤ} (h₁ : -n ≤ d) (h₂ : d ≤ n) : sliceTgtLo n d = max 0 d := by
  unfold sliceTgtLo clampIdx pyIdx
  rcases lt_trichotomy d 0 with h | h | h <;> split_ifs <;> omega

theorem sliceTgtHi_eq {n d : ℤ} (h₁ : -n ≤ d) (h₂ : d ≤ n) :
    sliceTgtHi n d = min n (n + d) := by
  unfold sliceTgtHi clampIdx pyIdx
  rcases lt_trichotomy d 0 with h | h | h <;> split_ifs <;> omega

theorem sliceSrcLo_eq {n d : ℤ} (h₁ : -n ≤ d) (h₂ : d ≤ n) :
    sliceSrcLo n d = max 0 (-d) := by
  unfold sliceSrcLo clampIdx pyIdx
  rcases lt_trichotomy d 0 with h | h | h <;> split_ifs <;> omega

/-- C6: after `shift_dem((dx, dy))` with both shift components strictly
smaller than the buffer side in absolute value, every buffer sample whose
source pixel `(i - dx, j - dy)` was in bounds before the shift equals the
pre-shift value at that source pixel, and every sample with no in-bounds
source pixel (the newly exposed rows and columns) is exactly zero. -/
theorem C6_shiftDem_partial (n dx dy i j : ℤ) (dem : ℤ → ℤ → ℚ)
    (hn : 0 < n) (hdx : |dx| < n) (hdy : |dy| < n)
    (hi : 0 ≤ i ∧ i < n) (hj : 0 ≤ j ∧ j < n) :
    shiftDem n (dx, dy) dem i j =
      if 0 ≤ i - dx ∧ i - dx < n ∧ 0 ≤ j - dy ∧ j - dy < n then dem (i - dx) (j - dy)
      else 0 := by
  obtain ⟨hi0, hi1⟩ := hi
  obtain ⟨hj0, hj1⟩ := hj
  rw [abs_lt] at hdx hdy
  have hdx1 : -n ≤ dx := le_of_lt hdx.1
  have hdx2 : dx ≤ n := le_of_lt hdx.2
  have hdy1 : -n ≤ dy := le_of_lt hdy.1
  have hdy2 : dy ≤ n := le_of_lt hdy.2
  unfold shiftDem
  dsimp only
  rw [if_neg (by omega : ¬(n < dx ∨ n < dy))]
  rw [sliceTgtLo_eq hdx1 hdx2, sliceTgtHi_eq hdx1 hdx2, sliceSrcLo_eq hdx1 hdx2,
    sliceTgtLo_eq hdy1 hdy2, sliceTgtHi_eq hdy1 hdy2, sliceSrcLo_eq hdy1 hdy2]
  have ex : i - max 0 dx + max 0 (-dx) = i - dx := by omega
  have ey : j - max 0 dy + max 0 (-dy) = j - dy := by omega
  rw [ex, ey]
  split_ifs <;> first | rfl | omega

theorem sliceTgtHi_neg_over {n d : ℤ} (hn : 0 < n) (h : d < -n) : sliceTgtHi n d = 0 := by
  unfold sliceTgtHi clampIdx pyIdx
  split_ifs <;> omega

/-- C7: a pixel shift exceeding the buffer size in either axis (either
sign) is handled without error and leaves every sample of the buffer equal
to zero: positive overflows take the explicit reset branch, negative
overflows produce an empty copy region and full-range zero fills. -/
theorem C7_shiftDem_overflow (n dx dy i j : ℤ) (dem : ℤ → ℤ → ℚ)
    (hn : 0 < n) (hover : n < |dx| ∨ n < |dy|)
    (hi : 0 ≤ i ∧ i < n) (hj : 0 ≤ j ∧ j < n) :
    shiftDem n (dx, dy) dem i j = 0 := by
  obtain ⟨hi0, hi1⟩ := hi
  obtain ⟨hj0, hj1⟩ := hj
  rw [lt_abs, lt_abs] at hover
  unfold shiftDem
  dsimp only
  by_cases hbig : n < dx ∨ n < dy
  · rw [if_pos hbig]
  · rw [if_neg hbig]
    have hcase : dx < -n ∨ dy < -n := by omega
    rcases hcase with hc | hc
    · rw [sliceTgtHi_neg_over hn hc]
      rw [if_pos ⟨by omega, hi0⟩]
    · by_cases h₁ : dx < 0 ∧ sliceTgtHi n dx ≤ i
      · rw [if_pos h₁]
      · rw [if_neg h₁]
        by_cases h₂ : 0 < dx ∧ i < sliceTgtLo n dx
        · rw [if_pos h₂]
        · rw [if_neg h₂, sliceTgtHi_neg_over hn hc]
          rw [if_pos ⟨by omega, hj0⟩]

/-- A concrete height field used by the query-path scenarios: the sample at
pixel `(i, j)` is the value `i`, so reads from different rows are
distinguishable. -/
def demLinear : ℤ → ℤ → ℚ := fun i _ => (i : ℚ)

/-- Witness for C6: a concrete partial shift on a `3 × 3` buffer. -/
theorem C6_shiftDem_partial_witness :
    ((0 : ℤ) < 3 ∧ |(1 : ℤ)| < 3 ∧ |(-1 : ℤ)| < 3 ∧
      ((0 : ℤ) ≤ 2 ∧ (2 : ℤ) < 3) ∧ ((0 : ℤ) ≤ 0 ∧ (0 : ℤ) < 3)) ∧
    shiftDem 3 (1, -1) demLinear 2 0 =
      (if (0 : ℤ) ≤ 2 - 1 ∧ 2 - 1 < 3 ∧ (0 : ℤ) ≤ 0 - -1 ∧ 0 - -1 < 3
        then demLinear (2 - 1) (0 - -1) else 0) :=
  ⟨⟨by decide, by decide, by decide, by decide, by decide⟩,
    C6_shiftDem_partial 3 1 (-1) 2 0 demLinear (by decide) (by decide) (by decide)
      (by decide) (by decide)⟩

/-- Witness for C7: a shift of `-5` pixels on a `3 × 3` buffer leaves the
sample at `(1, 1)` zero. -/
theorem C7_shiftDem_overflow_witness :
    ((0 : ℤ) < 3 ∧ ((3 : ℤ) < |(-5 : ℤ)| ∨ (3 : ℤ) < |(0 : ℤ)|) ∧
      ((0 : ℤ) ≤ 1 ∧ (1 : ℤ) < 3) ∧ ((0 : ℤ) ≤ 1 ∧ (1 : ℤ) < 3)) ∧
    shiftDem 3 (-5, 0) demLinear 1 1 = 0 :=
  ⟨⟨by decide, by decide, by decide, by decide⟩,
    C7_shiftDem_overflow 3 (-5) 0 1 1 demLinear (by decide) (by decide) (by decide)
      (by decide)⟩

/-- numpy integer indexing into the square `n × n` buffer: indices in
`[-n, n)` are accepted, negative ones silently wrap to `n + i`; anything
outside raises `IndexError` (`none`). -/
def demIndex (n : ℤ) (dem : ℤ → ℤ → ℚ) (i j : ℤ) : Option ℚ :=
  if -n ≤ i ∧ i < n ∧ -n ≤ j ∧ j < n then
    some (dem (if i < 0 then n + i else i) (if j < 0 then n + j else j))
  else none

/-- `instantiate_high_res_dem`: the pixel side length of the buffer,
`int((num_blocks * 2 + 3) * block_size / resolution)`. -/
def demSize (cfg : Cfg) : ℤ :=
  pyTrunc ((((cfg.num_blocks : ℤ) * 2 + 3 : ℤ) : ℚ) * (cfg.block_size : ℚ) / cfg.resolution)

/-- `get_coordinates(coordinates)`: the position in meters relative to the
buffer origin, `p + (shape // 2) * resolution - current_block_coord -
block_size // 2` in each axis. -/
def get_coordinates (cfg : Cfg) (current : ℤ × ℤ) (p : ℚ × ℚ) : ℚ × ℚ :=
  ( p.1 + (((demSize cfg).fdiv 2 : ℤ) : ℚ) * cfg.resolution - (current.1 : ℚ) -
      ((cfg.block_size.fdiv 2 : ℤ) : ℚ)
  , p.2 + (((demSize cfg).fdiv 2 : ℤ) : ℚ) * cfg.resolution - (current.2 : ℚ) -
      ((cfg.block_size.fdiv 2 : ℤ) : ℚ) )

/-- `get_height(coordinates)`: divide the local coordinates by the
resolution, truncate with `int(...)`, and index the buffer. -/
def get_height (cfg : Cfg) (current : ℤ × ℤ) (dem : ℤ → ℤ → ℚ) (p : ℚ × ℚ) : Option ℚ :=
  let lc := get_coordinates cfg current p
  demIndex (demSize cfg) dem (pyTrunc (lc.1 / cfg.resolution)) (pyTrunc (lc.2 / cfg.resolution))

/-- The pixel-index conversion claimed by the spec for `get_height`,
written from the claim's words: floor of
`(p + half_extent * resolution - current_block_coord) / resolution` in
each axis, with no other offset. -/
def specQueryIndex (cfg : Cfg) (current : ℤ × ℤ) (p : ℚ × ℚ) : ℤ × ℤ :=
  ( ⌊(p.1 + (((demSize cfg).fdiv 2 : ℤ) : ℚ) * cfg.resolution - (current.1 : ℚ)) /
      cfg.resolution⌋
  , ⌊(p.2 + (((demSize cfg).fdiv 2 : ℤ) : ℚ) * cfg.resolution - (current.2 : ℚ)) /
      cfg.resolution⌋ )

/-- The configuration of the source's `__main__` scenario: `num_blocks=4`,
`block_size=50`, `resolution=0.05`. -/
def cfg2 : Cfg :=
  { num_blocks := 4, block_size := 50, resolution := 1 / 20, generate_craters := false }

theorem pyTrunc_intCast (z : ℤ) : pyTrunc ((z : ℚ)) = z := by
  unfold pyTrunc
  split_ifs <;> simp

/-- C2 counterexample: at the source's own configuration, querying the
origin with the window centred at the origin reads pixel `(5000, 5000)`,
while the conversion claimed by the spec (no half-block term) gives pixel
`(5500, 5500)`: an extra `block_size // 2` offset does enter the
conversion. -/
theorem C2_counterexample :
    pyTrunc ((get_coordinates cfg2 (0, 0) (0, 0)).1 / cfg2.resolution) = 5000 ∧
    get_height cfg2 (0, 0) demLinear (0, 0) = some 5000 ∧
    specQueryIndex cfg2 (0, 0) (0, 0) = (5500, 5500) ∧
    demLinear 5500 5500 ≠ (5000 : ℚ) := by
  have hsize : demSize cfg2 = 11000 := by norm_num [demSize, cfg2, pyTrunc]
  have hfd : (demSize cfg2).fdiv 2 = 5500 := by rw [hsize]; decide
  have hbd : cfg2.block_size.fdiv 2 = 25 := by decide
  have hlc1 : (get_coordinates cfg2 (0, 0) (0, 0)).1 = 250 := by
    simp only [get_coordinates, hfd, hbd]
    norm_num [cfg2]
  have hlc2 : (get_coordinates cfg2 (0, 0) (0, 0)).2 = 250 := by
    simp only [get_coordinates, hfd, hbd]
    norm_num [cfg2]
  have hidx1 : pyTrunc ((get_coordinates cfg2 (0, 0) (0, 0)).1 / cfg2.resolution) = 5000 := by
    rw [hlc1, show (250 : ℚ) / cfg2.resolution = ((5000 : ℤ) : ℚ) by norm_num [cfg2],
      pyTrunc_intCast]
  have hidx2 : pyTrunc ((get_coordinates cfg2 (0, 0) (0, 0)).2 / cfg2.resolution) = 5000 := by
    rw [hlc2, show (250 : ℚ) / cfg2.resolution = ((5000 : ℤ) : ℚ) by norm_num [cfg2],
      pyTrunc_intCast]
  refine ⟨hidx1, ?_, ?_, by norm_num [demLinear]⟩
  · unfold get_height
    dsimp only
    rw [hidx1, hidx2, hsize]
    norm_num [demIndex, demLinear]
  · unfold specQueryIndex
    rw [hfd]
    simp only [Prod.mk.injEq]
    constructor <;> norm_num [cfg2]

/-- C2 (amended): the conversion of `get_height` subtracts an additional
`block_size // 2` meters beyond the claimed formula.  Whenever the block
size is even and the buffer side is an even number of pixels, the local
coordinate equals `p - current + (num_blocks + 1) * block_size` in each
axis — i.e. buffer pixel `(0, 0)` corresponds to world position
`current - (num_blocks + 1) * block_size`, consistent with where
`collect_terrain_data` writes block data.  The query truncates toward zero
(`int(...)`) and returns the single buffer sample, with no interpolation. -/
theorem C2_get_coordinates_centering (cfg : Cfg) (current : ℤ × ℤ) (p : ℚ × ℚ)
    (dem : ℤ → ℤ → ℚ) (hres : cfg.resolution ≠ 0)
    (hdiv : ∃ k : ℤ, (((cfg.num_blocks : ℤ) * 2 + 3 : ℤ) : ℚ) * (cfg.block_size : ℚ) =
      cfg.resolution * (2 * (k : ℚ)))
    (heven : ∃ m : ℤ, cfg.block_size = 2 * m) :
    (get_coordinates cfg current p).1 =
      p.1 - (current.1 : ℚ) + (((cfg.num_blocks : ℤ) + 1 : ℤ) : ℚ) * (cfg.block_size : ℚ) ∧
    (get_coordinates cfg current p).2 =
      p.2 - (current.2 : ℚ) + (((cfg.num_blocks : ℤ) + 1 : ℤ) : ℚ) * (cfg.block_size : ℚ) ∧
    get_height cfg current dem p =
      demIndex (demSize cfg) dem
        (pyTrunc ((get_coordinates cfg current p).1 / cfg.resolution))
        (pyTrunc ((get_coordinates cfg current p).2 / cfg.resolution)) := by
  obtain ⟨k, hk⟩ := hdiv
  obtain ⟨m, hm⟩ := heven
  have hsize : demSize cfg = 2 * k := by
    unfold demSize
    rw [hk, mul_comm cfg.resolution, mul_div_assoc, div_self hres, mul_one]
    rw [show (2 * (k : ℚ)) = (((2 * k : ℤ) : ℚ)) by push_cast; ring]
    exact pyTrunc_intCast _
  have hfd : (demSize cfg).fdiv 2 = k := by
    rw [hsize]
    simpa using Int.mul_fdiv_cancel_left k (by norm_num : (2 : ℤ) ≠ 0)
  have hbd : cfg.block_size.fdiv 2 = m := by
    rw [hm]
    simpa using Int.mul_fdiv_cancel_left m (by norm_num : (2 : ℤ) ≠ 0)
  have hkres : (k : ℚ) * cfg.resolution =
      (((cfg.num_blocks : ℤ) * 2 + 3 : ℤ) : ℚ) * (cfg.block_size : ℚ) / 2 := by
    rw [eq_div_iff (by norm_num : (2 : ℚ) ≠ 0)]
    linear_combination -hk
  have hmb : (m : ℚ) = (cfg.block_size : ℚ) / 2 := by
    rw [eq_div_iff (by norm_num : (2 : ℚ) ≠ 0), hm]
    push_cast
    ring
  refine ⟨?_, ?_, rfl⟩
  · unfold get_coordinates
    dsimp only
    rw [hfd, hbd, hkres, hmb]
    push_cast
    ring
  · unfold get_coordinates
    dsimp only
    rw [hfd, hbd, hkres, hmb]
    push_cast
    ring

/-- Witness for C2 (amended): the concrete configuration of the source's
`__main__` scenario satisfies the divisibility hypotheses, and the
centering equality evaluates as stated at the origin. -/
theorem C2_get_coordinates_centering_witness :
    (cfg2.resolution ≠ 0 ∧
      (∃ k : ℤ, (((cfg2.num_blocks : ℤ) * 2 + 3 : ℤ) : ℚ) * (cfg2.block_size : ℚ) =
        cfg2.resolution * (2 * (k : ℚ))) ∧
      (∃ m : ℤ, cfg2.block_size = 2 * m)) ∧
    ((get_coordinates cfg2 (0, 0) (0, 0)).1 =
        (0 : ℚ) - ((0 : ℤ) : ℚ) + (((cfg2.num_blocks : ℤ) + 1 : ℤ) : ℚ) * (cfg2.block_size : ℚ) ∧
      (get_coordinates cfg2 (0, 0) (0, 0)).2 =
        (0 : ℚ) - ((0 : ℤ) : ℚ) + (((cfg2.num_blocks : ℤ) + 1 : ℤ) : ℚ) * (cfg2.block_size : ℚ) ∧
      get_height cfg2 (0, 0) demLinear (0, 0) =
        demIndex (demSize cfg2) demLinear
          (pyTrunc ((get_coordinates cfg2 (0, 0) (0, 0)).1 / cfg2.resolution))
          (pyTrunc ((get_coordinates cfg2 (0, 0) (0, 0)).2 / cfg2.resolution))) :=
  ⟨⟨by norm_num [cfg2], ⟨5500, by norm_num [cfg2]⟩, ⟨25, by norm_num [cfg2]⟩⟩,
    C2_get_coordinates_centering cfg2 (0, 0) (0, 0) demLinear (by norm_num [cfg2])
      ⟨5500, by norm_num [cfg2]⟩ ⟨25, by norm_num [cfg2]⟩⟩

/-- A tiny configuration for the out-of-bounds query scenario:
`num_blocks = 0`, `block_size = 2`, `resolution = 1`, so the buffer is
`6 × 6` pixels. -/
def cfg3 : Cfg :=
  { num_blocks := 0, block_size := 2, resolution := 1, generate_craters := false }

/-- C3: querying position `(-4, -4)` (with the window centred at the
origin) converts to pixel index `(-2, -2)`, which is outside the buffer's
valid range `[0, demSize)`; yet `get_height` does not fail: numpy's
negative indexing silently wraps and the call returns the sample taken
from pixel `(4, 4)` — a different location of the buffer. -/
theorem C3_negative_index_wraps :
    demSize cfg3 = 6 ∧
    pyTrunc ((get_coordinates cfg3 (0, 0) (-4, -4)).1 / cfg3.resolution) = -2 ∧
    get_height cfg3 (0, 0) demLinear (-4, -4) = some (demLinear 4 4) ∧
    get_height cfg3 (0, 0) demLinear (-4, -4) ≠ none := by
  have hsize : demSize cfg3 = 6 := by norm_num [demSize, cfg3, pyTrunc]
  have hfd : (demSize cfg3).fdiv 2 = 3 := by rw [hsize]; decide
  have hbd : cfg3.block_size.fdiv 2 = 1 := by decide
  have hlc1 : (get_coordinates cfg3 (0, 0) (-4, -4)).1 = -2 := by
    simp only [get_coordinates, hfd, hbd]
    norm_num [cfg3]
  have hlc2 : (get_coordinates cfg3 (0, 0) (-4, -4)).2 = -2 := by
    simp only [get_coordinates, hfd, hbd]
    norm_num [cfg3]
  have hidx1 : pyTrunc ((get_coordinates cfg3 (0, 0) (-4, -4)).1 / cfg3.resolution) = -2 := by
    rw [hlc1, show ((-2 : ℚ)) / cfg3.resolution = (((-2 : ℤ)) : ℚ) by norm_num [cfg3],
      pyTrunc_intCast]
  have hidx2 : pyTrunc ((get_coordinates cfg3 (0, 0) (-4, -4)).2 / cfg3.resolution) = -2 := by
    rw [hlc2, show ((-2 : ℚ)) / cfg3.resolution = (((-2 : ℤ)) : ℚ) by norm_num [cfg3],
      pyTrunc_intCast]
  have hgh : get_height cfg3 (0, 0) demLinear (-4, -4) = some (demLinear 4 4) := by
    unfold get_height
    dsimp only
    rw [hidx1, hidx2, hsize]
    norm_num [demIndex]
  exact ⟨hsize, hidx1, hgh, by rw [hgh]; exact Option.some_ne_none _⟩

/-- C10 (amended): `shift_dem((0, 0))` is the pointwise identity on the
buffer.  `shift_block_grid` at the unchanged centre keeps the absolute map
unchanged, maps every relative slot to the very same state object (the
same ref) it held before, and preserves every object's three readiness
flags; the padding write-through may however rewrite stored `is_padding`
values, so the full flag values are not always preserved (see the
counterexample). -/
theorem C10_shift_identity (cfg : Cfg) (gs : GridState) (n' : ℤ) (dem : ℤ → ℤ → ℚ)
    (hb : 0 < cfg.block_size) (hn : 0 ≤ n') (hreach : Reachable cfg gs) :
    (∀ i j : ℤ, shiftDem n' (0, 0) dem i j = dem i j) ∧
    (shiftTo cfg gs gs.current).blockMap = gs.blockMap ∧
    (∀ p ∈ gridPairs cfg.num_blocks,
      alookup (shiftTo cfg gs gs.current).tracker (slot cfg.block_size p) =
        alookup gs.tracker (slot cfg.block_size p)) ∧
    (∀ r : ℕ, ∀ st, gs.store[r]? = some st →
      ∃ st', (shiftTo cfg gs gs.current).store[r]? = some st' ∧ sameReady st' st) := by
  have hInv := reachable_inv hreach
  refine ⟨?_, ?_, ?_, ?_⟩
  · intro i j
    unfold shiftDem
    dsimp only
    rw [if_neg (by omega : ¬(n' < 0 ∨ n' < 0))]
    rw [sliceTgtLo_eq (by omega) (by omega), sliceTgtHi_eq (by omega) (by omega),
      sliceSrcLo_eq (by omega) (by omega)]
    split_ifs <;> simp_all
  · show (shiftGrid cfg gs gs.current).blockMap = gs.blockMap
    rw [hInv.bmap_eq]
    simpa using shift_fold_bmap cfg gs gs.current (gridPairs cfg.num_blocks)
      { store := gs.store, tracker := [], blockMap := [], current := gs.current }
  · intro p hp
    have hmap : (gridPairs cfg.num_blocks).map (mapEntry cfg gs.current) =
        (gridPairs cfg.num_blocks).map
          fun q => (aKey cfg gs.current q, slot cfg.block_size q) := rfl
    have hm : alookup gs.blockMap (aKey cfg gs.current p) = some (slot cfg.block_size p) := by
      rw [hInv.bmap_eq, hmap]
      exact alookup_map_of_inj (gridPairs cfg.num_blocks) (aKey cfg gs.current)
        (slot cfg.block_size) (fun a₁ _ a₂ _ h => aKey_inj hb gs.current h) hp
    obtain ⟨r, st, htr, _⟩ := inv_stateAt_total hInv p hp
    rw [htr]
    exact shift_fold_reuse cfg gs gs.current hb (gridPairs cfg.num_blocks)
      { store := gs.store, tracker := [], blockMap := [], current := gs.current }
      (nodup_gridPairs _) (fun q _ => rfl) p hp (slot cfg.block_size p) r hm htr
  · intro r st hst
    exact shift_fold_store_get cfg gs gs.current (gridPairs cfg.num_blocks)
      { store := gs.store, tracker := [], blockMap := [], current := gs.current } r st hst

/-- Witness for C10 (amended): the concrete instance at `cfg0` on the
freshly built grid, with a `3 × 3` buffer. -/
theorem C10_shift_identity_witness :
    ((0 : ℤ) < cfg0.block_size ∧ (0 : ℤ) ≤ 3) ∧
    ((∀ i j : ℤ, shiftDem 3 (0, 0) demLinear i j = demLinear i j) ∧
      (shiftTo cfg0 (buildGrid cfg0 (0, 0)) (buildGrid cfg0 (0, 0)).current).blockMap =
        (buildGrid cfg0 (0, 0)).blockMap ∧
      (∀ p ∈ gridPairs cfg0.num_blocks,
        alookup (shiftTo cfg0 (buildGrid cfg0 (0, 0))
            (buildGrid cfg0 (0, 0)).current).tracker (slot cfg0.block_size p) =
          alookup (buildGrid cfg0 (0, 0)).tracker (slot cfg0.block_size p)) ∧
      (∀ r : ℕ, ∀ st, (buildGrid cfg0 (0, 0)).store[r]? = some st →
        ∃ st', (shiftTo cfg0 (buildGrid cfg0 (0, 0))
            (buildGrid cfg0 (0, 0)).current).store[r]? = some st' ∧ sameReady st' st)) :=
  ⟨⟨by decide, by decide⟩,
    C10_shift_identity cfg0 (buildGrid cfg0 (0, 0)) 3 demLinear (by decide) (by decide)
      Reachable.base⟩

/-- Witness for C9: the bijection instance at `cfg0` on the freshly built
grid. -/
theorem C9_map_bijection_witness :
    ((0 : ℤ) < cfg0.block_size) ∧
    ((∀ x ∈ gridIdx cfg0.num_blocks, ∀ y ∈ gridIdx cfg0.num_blocks,
        alookup (buildGrid cfg0 (0, 0)).blockMap
          (x * cfg0.block_size + (buildGrid cfg0 (0, 0)).current.1,
            y * cfg0.block_size + (buildGrid cfg0 (0, 0)).current.2) =
          some (x * cfg0.block_size, y * cfg0.block_size)) ∧
      (∀ a s, alookup (buildGrid cfg0 (0, 0)).blockMap a = some s →
        a = (s.1 + (buildGrid cfg0 (0, 0)).current.1,
          s.2 + (buildGrid cfg0 (0, 0)).current.2) ∧
        ∃ x ∈ gridIdx cfg0.num_blocks, ∃ y ∈ gridIdx cfg0.num_blocks,
          s = (x * cfg0.block_size, y * cfg0.block_size))) :=
  ⟨by decide, C9_map_bijection cfg0 (buildGrid cfg0 (0, 0)) (by decide) Reachable.base⟩

/-- Witness for C1 (amended): the equivalence instantiated at the
reachable state `gsC1` of the counterexample scenario. -/
theorem C1_isMapDone_all_blocks_witness :
    isMapDone gsC1 = true ↔
      ∀ x ∈ gridIdx cfg0.num_blocks, ∀ y ∈ gridIdx cfg0.num_blocks,
        ∃ st, stateAt gsC1 (x * cfg0.block_size, y * cfg0.block_size) = some st ∧
          st.has_crater_metadata = true ∧ st.has_crater_data = true ∧
          st.has_terrain_data = true :=
  C1_isMapDone_all_blocks cfg0 gsC1 (Reachable.step_ev _ (Reachable.step_shift _ Reachable.base))

/-- The orchestrator state relevant to `update_high_res_dem`: the grid
bookkeeping, the high-resolution buffer, and the warm-up flag
`sim_is_warm`. -/
structure DemGen where
  grid : GridState
  dem : ℤ → ℤ → ℚ
  warm : Bool

/-- `cast_coordinates_to_block_space`: `int(x // block_size) * block_size`
in each axis (the floor division is exact, so `int(...)` is the floor). -/
def castBlock (cfg : Cfg) (p : ℚ × ℚ) : ℤ × ℤ :=
  (⌊p.1 / (cfg.block_size : ℚ)⌋ * cfg.block_size,
    ⌊p.2 / (cfg.block_size : ℚ)⌋ * cfg.block_size)

/-- `shift(coordinates)` restricted to the state modelled here (valid for
configurations with crater generation disabled, where the crater-metadata
step is skipped and `generate_terrain_blocks` only submits work items
without touching the grid or the buffer): cast to block space, compute the
pixel delta `-int(delta / resolution)`, shift the block grid, shift the
DEM, and set the current block coordinate.  Also returns the pixel shift
that was applied to the buffer. -/
def shiftFull (cfg : Cfg) (st : DemGen) (p : ℚ × ℚ) : DemGen × (ℤ × ℤ) :=
  let nb := castBlock cfg p
  let ps : ℤ × ℤ :=
    ( -pyTrunc (((nb.1 - st.grid.current.1 : ℤ) : ℚ) / cfg.resolution)
    , -pyTrunc (((nb.2 - st.grid.current.2 : ℤ) : ℚ) / cfg.resolution) )
  ({ grid := shiftTo cfg st.grid nb
     dem := shiftDem (demSize cfg) ps st.dem
     warm := st.warm }, ps)

/-- `update_high_res_dem(coords)`: on the first call (`sim_is_warm` false)
shift to the block coordinates and mark the simulation warm; then, if the
current block coordinate differs from the cast coordinates, shift again
(with the raw coordinates, which `shift` casts itself).  Returns the new
state, the `updated` flag, and the list of pixel shifts applied to the
buffer during this call. -/
def updateOp (cfg : Cfg) (st : DemGen) (p : ℚ × ℚ) : DemGen × Bool × List (ℤ × ℤ) :=
  let bc := castBlock cfg p
  let w :=
    if st.warm then (st, false, ([] : List (ℤ × ℤ)))
    else
      let r := shiftFull cfg st ((bc.1 : ℚ), (bc.2 : ℚ))
      ({ r.1 with warm := true }, true, [r.2])
  if w.1.grid.current = bc then w
  else
    let r := shiftFull cfg w.1 p
    (r.1, true, w.2.2 ++ [r.2])

/-- The configuration of the C8 scenario: `block_size = 50`,
`resolution = 0.05` (the configured resolution), a one-block window,
crater generation disabled. -/
def cfg8 : Cfg :=
  { num_blocks := 0, block_size := 50, resolution := 1 / 20, generate_craters := false }

/-- The cold initial state of the C8 scenario: freshly built grid centred
at `(0, 0)`, zero buffer, simulation not yet warm. -/
def st8 : DemGen :=
  { grid := buildGrid cfg8 (0, 0), dem := fun _ _ => 0, warm := false }

/-- The state after the first call, `update((0, 0))`. -/
def st8a : DemGen := (updateOp cfg8 st8 (0, 0)).1

theorem cast8_zero : castBlock cfg8 ((0 : ℚ), (0 : ℚ)) = (0, 0) := by
  unfold castBlock
  norm_num [cfg8]

theorem cast8_sixty : castBlock cfg8 ((60 : ℚ), (0 : ℚ)) = (50, 0) := by
  unfold castBlock
  simp only [Prod.mk.injEq]
  constructor <;> norm_num [cfg8]

theorem st8a_spec : st8a.warm = true ∧ st8a.grid = shiftTo cfg8 (buildGrid cfg8 (0, 0)) (0, 0) := by
  unfold st8a updateOp st8
  rw [cast8_zero]
  dsimp only
  rw [if_neg (by decide : ¬(false = true))]
  dsimp only [shiftFull]
  rw [show castBlock cfg8 (((0 : ℤ) : ℚ), ((0 : ℤ) : ℚ)) = (0, 0) by
    simpa using cast8_zero]
  rw [if_pos (show (shiftTo cfg8 (buildGrid cfg8 (0, 0)) (0, 0)).current = (0, 0) from rfl)]
  exact ⟨rfl, rfl⟩

theorem setField_parts (gs : GridState) (a : ℤ × ℤ) (f : BlockState → BlockState) :
    (setField gs a f).current = gs.current ∧ (setField gs a f).tracker = gs.tracker ∧
      (setField gs a f).blockMap = gs.blockMap := by
  unfold setField
  cases alookup gs.blockMap a with
  | none => exact ⟨rfl, rfl, rfl⟩
  | some s =>
    dsimp only
    cases alookup gs.tracker s with
    | none => exact ⟨rfl, rfl, rfl⟩
    | some r =>
      dsimp only
      cases gs.store[r]? with
      | none => exact ⟨rfl, rfl, rfl⟩
      | some st => exact ⟨rfl, rfl, rfl⟩

theorem applyEv_parts (gs : GridState) (e : Ev) :
    (applyEv gs e).current = gs.current ∧ (applyEv gs e).tracker = gs.tracker ∧
      (applyEv gs e).blockMap = gs.blockMap := by
  cases e with
  | craterMeta a v => exact setField_parts gs a _
  | craterData a => exact setField_parts gs a _
  | terrain a => exact setField_parts gs a _

theorem evs_fold_current (evs : List Ev) (gs : GridState) :
    (evs.foldl applyEv gs).current = gs.current := by
  induction evs generalizing gs with
  | nil => rfl
  | cons e rest ih => rw [List.foldl_cons, ih, (applyEv_parts gs e).1]

/-- The grid after the first update followed by an arbitrary run of
collection events. -/
def g1fn (evs : List Ev) : GridState := evs.foldl applyEv st8a.grid

/-- The second update of the C8 scenario, `update((60, 0))`, issued from
the post-collection state. -/
def r2fn (evs : List Ev) : DemGen × Bool × List (ℤ × ℤ) :=
  updateOp cfg8 { st8a with grid := g1fn evs } (60, 0)

theorem g1fn_current (evs : List Ev) : (g1fn evs).current = (0, 0) := by
  unfold g1fn
  rw [evs_fold_current, st8a_spec.2]
  rfl

theorem r2fn_eq (evs : List Ev) :
    r2fn evs = ((shiftFull cfg8 { st8a with grid := g1fn evs } (60, 0)).1, true,
      [(shiftFull cfg8 { st8a with grid := g1fn evs } (60, 0)).2]) := by
  unfold r2fn updateOp
  rw [cast8_sixty]
  dsimp only
  rw [if_pos st8a_spec.1]
  dsimp only
  rw [if_neg (by rw [g1fn_current]; decide :
    ¬({ st8a with grid := g1fn evs } : DemGen).grid.current = (50, 0))]
  rfl

theorem shiftFull_sixty (evs : List Ev) :
    shiftFull cfg8 { st8a with grid := g1fn evs } (60, 0) =
      ({ grid := shiftTo cfg8 (g1fn evs) (50, 0)
         dem := shiftDem (demSize cfg8) (-1000, 0) (st8a.dem)
         warm := st8a.warm }, (-1000, 0)) := by
  unfold shiftFull
  rw [cast8_sixty]
  dsimp only
  rw [g1fn_current]
  dsimp only
  have h₁ : -pyTrunc (((50 - 0 : ℤ) : ℚ) / cfg8.resolution) = -1000 := by
    rw [show (((50 - 0 : ℤ) : ℚ)) / cfg8.resolution = ((1000 : ℤ) : ℚ) by norm_num [cfg8],
      pyTrunc_intCast]
  have h₂ : -pyTrunc (((0 - 0 : ℤ) : ℚ) / cfg8.resolution) = 0 := by
    rw [show (((0 - 0 : ℤ) : ℚ)) / cfg8.resolution = ((0 : ℤ) : ℚ) by norm_num [cfg8],
      pyTrunc_intCast]
    rfl
  rw [h₁, h₂]

/-- C8 counterexample: the second call's shift applies the pixel delta
`(-1000, 0)` (i.e. `-(new_block - old_block)/resolution = -50/0.05`), not
`(-60/resolution, 0) = (-1200, 0)` as the claim states. -/
theorem C8_counterexample :
    (r2fn []).2.2 = [(-1000, 0)] ∧
    pyTrunc ((-60 : ℚ) / cfg8.resolution) = -1200 ∧
    ((-1000 : ℤ), (0 : ℤ)) ≠ ((-1200 : ℤ), (0 : ℤ)) := by
  refine ⟨?_, ?_, by decide⟩
  · rw [r2fn_eq, shiftFull_sixty]
  · rw [show ((-60 : ℚ)) / cfg8.resolution = ((-1200 : ℤ) : ℚ) by norm_num [cfg8],
      pyTrunc_intCast]

/-- C8 (amended): with `block_size = 50` and `resolution = 0.05`, starting
from current block `(0, 0)`, `update((0, 0))` followed (after any run of
collection events) by `update((60, 0))` triggers exactly one shift on the
second call; that shift applies the pixel delta
`-(new_block - old_block)/resolution = (-50/0.05, 0) = (-1000, 0)`; and
every block of the old window with `has_terrain_data` true whose absolute
coordinate remains in the new window retains `has_terrain_data = true`
after the shift. -/
theorem C8_second_update (evs : List Ev) :
    (r2fn evs).2.1 = true ∧
    (r2fn evs).2.2 = [(-1000, 0)] ∧
    (∀ p ∈ gridPairs cfg8.num_blocks, ∀ s2 : ℤ × ℤ, ∀ r : ℕ, ∀ st,
      alookup (g1fn evs).blockMap (aKey cfg8 (50, 0) p) = some s2 →
      alookup (g1fn evs).tracker s2 = some r →
      (g1fn evs).store[r]? = some st →
      st.has_terrain_data = true →
      ∃ st', stateAt (r2fn evs).1.grid (slot cfg8.block_size p) = some st' ∧
        st'.has_terrain_data = true) := by
  refine ⟨by rw [r2fn_eq], by rw [r2fn_eq, shiftFull_sixty], ?_⟩
  intro p hp s2 r st hm htr hst hterr
  have hb : (0 : ℤ) < cfg8.block_size := by decide
  have htrk := shift_fold_reuse cfg8 (g1fn evs) (50, 0) hb (gridPairs cfg8.num_blocks)
    { store := (g1fn evs).store, tracker := [], blockMap := [],
      current := (g1fn evs).current }
    (nodup_gridPairs _) (fun q _ => rfl) p hp s2 r hm htr
  obtain ⟨st', hst', hready⟩ := shift_fold_store_get cfg8 (g1fn evs) (50, 0)
    (gridPairs cfg8.num_blocks)
    { store := (g1fn evs).store, tracker := [], blockMap := [],
      current := (g1fn evs).current } r st hst
  have hgrid : (r2fn evs).1.grid = shiftTo cfg8 (g1fn evs) (50, 0) := by
    rw [r2fn_eq, shiftFull_sixty]
  refine ⟨st', ?_, ?_⟩
  · rw [hgrid]
    exact stateAt_eq htrk hst'
  · rw [hready.2.2, hterr]

/-- Witness for C8 (amended): the single collection event that marks the
interior block `(0, 0)` terrain-ready; after `update((60, 0))` that block
sits at relative slot `(-50, 0)` and is still terrain-ready. -/
theorem C8_second_update_witness :
    (((-1, 0) : ℤ × ℤ) ∈ gridPairs cfg8.num_blocks ∧
      alookup (g1fn [Ev.terrain (0, 0)]).blockMap (aKey cfg8 (50, 0) (-1, 0)) =
        some (0, 0) ∧
      alookup (g1fn [Ev.terrain (0, 0)]).tracker (0, 0) = some 4 ∧
      ∃ st, (g1fn [Ev.terrain (0, 0)]).store[4]? = some st ∧
        st.has_terrain_data = true) ∧
    (∃ st', stateAt (r2fn [Ev.terrain (0, 0)]).1.grid
        (slot cfg8.block_size (-1, 0)) = some st' ∧ st'.has_terrain_data = true) := by
  have hg1 : g1fn [Ev.terrain (0, 0)] =
      applyEv (shiftTo cfg8 (buildGrid cfg8 (0, 0)) (0, 0)) (Ev.terrain (0, 0)) := by
    unfold g1fn
    rw [st8a_spec.2]
    rfl
  have hp : (((-1, 0) : ℤ × ℤ)) ∈ gridPairs cfg8.num_blocks := by decide
  have hm : alookup (g1fn [Ev.terrain (0, 0)]).blockMap (aKey cfg8 (50, 0) (-1, 0)) =
      some (0, 0) := by
    rw [hg1]
    decide
  have htr : alookup (g1fn [Ev.terrain (0, 0)]).tracker (0, 0) = some 4 := by
    rw [hg1]
    decide
  have hst : (g1fn [Ev.terrain (0, 0)]).store[4]? =
      some { has_crater_metadata := true, has_crater_data := true,
             has_terrain_data := true, is_padding := false } := by
    rw [hg1]
    decide
  refine ⟨⟨hp, hm, htr, ⟨_, hst, rfl⟩⟩, ?_⟩
  exact (C8_second_update [Ev.terrain (0, 0)]).2.2 (-1, 0) hp (0, 0) 4 _ hm htr hst rfl
